import Mathlib

/-!
Verification development for the swagger-converter library (the modern
converter in `src/index.js`: `SwaggerConverter.convert` and its helper
functions on `Converter.prototype`).

The JavaScript code manipulates untyped JSON-like values.  We embed those
values as the inductive type `JsVal`, with an explicit `undef` constructor
for JavaScript's `undefined` (distinct from JSON `null`).  JSON numbers are
modelled exactly as normalized decimals `m * 10 ^ e` (mantissa and
exponent, with `m` never divisible by 10 unless zero, so that numeric
equality is structural); the converter never performs arithmetic on
numbers, it only copies them around, so this is faithful for every
observable behaviour of the functions embedded here.

JS objects are modelled as association lists of fields.  Property reads on
non-objects yield `undef`, matching JavaScript property access on
primitives.  (Property access on `null` throws in JavaScript; none of the
theorems below exercises that corner, and we note each such modelling
choice where it is made.)
-/

inductive JsVal : Type where
  | undef : JsVal
  | null : JsVal
  | bool (b : Bool) : JsVal
  | num (m : Int) (exp10 : Int) : JsVal
  | str (s : String) : JsVal
  | arr (elems : List JsVal) : JsVal
  | obj (fields : List (String × JsVal)) : JsVal

namespace SwaggerConv

open JsVal

/-- Field lookup in an association list; first match wins (JS objects have
unique keys, so the theorems below carry `Nodup` hypotheses where an input
object is universally quantified). -/
def lookupF : List (String × JsVal) → String → JsVal
  | [], _ => .undef
  | p :: rest, key => if p.1 = key then p.2 else lookupF rest key

/-- JS property read `value[key]`: objects look the field up, everything
else yields `undefined` (model; access on `null` would throw in JS). -/
def getField : JsVal → String → JsVal
  | .obj fs, key => lookupF fs key
  | _, _ => (.undef)

/-- JS property write on a field list: an existing key keeps its position,
a new key is appended (JS object insertion-order semantics). -/
def setFieldL (fs : List (String × JsVal)) (key : String) (v : JsVal) :
    List (String × JsVal) :=
  if fs.any (fun p => p.1 == key) then
    fs.map (fun p => if p.1 = key then (key, v) else p)
  else
    fs ++ [(key, v)]

/-- Removing a field from an object's field list (used to state claims of
the form "behaves as if the field were absent"). -/
def removeFieldL (fs : List (String × JsVal)) (key : String) :
    List (String × JsVal) :=
  fs.filter (fun p => !(p.1 == key))

/-- `isValue` from src/index.js: a value is "present" unless it is
`undefined`, `null` or the empty string (the converter drops empty strings
everywhere, see the comment in the source). -/
def isValue : JsVal → Bool
  | .undef => false
  | .null => false
  | .str s => s ≠ ""
  | _ => true

/-- JS truthiness, used for `||` and `if (x)` tests in the source. -/
def jsTruthy : JsVal → Bool
  | .undef => false
  | .null => false
  | .bool b => b
  | .num m _ => m ≠ 0
  | .str s => s ≠ ""
  | .arr _ => true
  | .obj _ => true

/-- JS `a || b`. -/
def jsOr (a b : JsVal) : JsVal := if jsTruthy a then a else b

/-- Is this value exactly the string `s`?  (JS `v === 's'`.) -/
def isStr : JsVal → String → Bool
  | .str t, s => t = s
  | _, _ => false

/-- Is this value exactly the boolean `true`?  (JS `v === true`.) -/
def isTrue : JsVal → Bool
  | .bool b => b
  | _ => false

/-- JS string coercion `'' + v` for the scalar values that actually reach
the coercion sites in the source (response codes, declaration paths).
Array/object coercion is approximated (unexercised by any theorem). -/
def jsToString : JsVal → String
  | .undef => "undefined"
  | .null => "null"
  | .bool b => if b then "true" else "false"
  | .num m e => if e = 0 then toString m else toString m ++ "e" ++ toString e
  | .str s => s
  | .arr _ => ""
  | .obj _ => "[object Object]"

/-- `extend(destination, source)` from src/index.js, on field lists: copy
each source entry, in order, skipping entries whose value fails `isValue`. -/
def assignFields (dest : List (String × JsVal))
    (src : List (String × JsVal)) : List (String × JsVal) :=
  src.foldl (fun d kv => if isValue kv.2 then setFieldL d kv.1 kv.2 else d) dest

/-- Lexicographic comparison of character lists (executable model of the
JS string order used by `Object.keys(o).sort()`). -/
def charsLe : List Char → List Char → Bool
  | [], _ => true
  | _ :: _, [] => false
  | a :: as, b :: bs =>
      if a < b then true else if b < a then false else charsLe as bs

/-- String order for key sorting. -/
def strLe (a b : String) : Bool := charsLe a.data b.data

/-- Whitespace test (shared by the trim model and the JSON parser). -/
def isWsC (c : Char) : Bool :=
  c = ' ' || c = '\t' || c = '\n' || c = '\r'

/-- ASCII lower-casing (model of JS `toLowerCase`; the converter only
compares type names and literals, which are ASCII). -/
def charToLower (c : Char) : Char :=
  if 'A' ≤ c && c ≤ 'Z' then Char.ofNat (c.toNat + 32) else c

/-- ASCII lower-casing of a string. -/
def strToLower (s : String) : String := String.mk (s.data.map charToLower)

/-- Whitespace trim (model of JS `String.prototype.trim`). -/
def strTrim (s : String) : String :=
  String.mk (((s.data.dropWhile isWsC).reverse.dropWhile isWsC).reverse)

/-- Does `s` start with `pre`? -/
def strStartsWith (s pre : String) : Bool := pre.data.isPrefixOf s.data

/-- Insertion step for sorting object keys (JS `Object.keys(o).sort()`; the
source's `forEach` iterates objects in sorted key order). -/
def insertPair (x : String × JsVal) :
    List (String × JsVal) → List (String × JsVal)
  | [] => [x]
  | y :: ys => if strLe x.1 y.1 then x :: y :: ys else y :: insertPair x ys

/-- Sort a field list by key (insertion sort; JS object keys are unique, so
stability is irrelevant). -/
def sortKeys (fs : List (String × JsVal)) : List (String × JsVal) :=
  fs.foldr insertPair []

/-- `getLength` from src/index.js, as the value it compares with `0`:
non-objects have length `0`; arrays use their element count; objects use a
present `length` field if any (JS property shadowing), else their key
count. -/
def lengthVal : JsVal → JsVal
  | .arr xs => .num xs.length 0
  | .obj fs =>
      let l := lookupF fs "length"
      if isValue l then l else .num fs.length 0
  | _ => .num 0 0

/-- `isEmpty` from src/index.js: `getLength(value) === 0`. -/
def isEmpty (v : JsVal) : Bool :=
  match lengthVal v with
  | .num m _ => m = 0
  | _ => false

/-- `undefinedIfEmpty` from src/index.js. -/
def undefinedIfEmpty (v : JsVal) : JsVal :=
  if isEmpty v then .undef else v

/-- JS strict equality `===` as used on `basePath` values: structural on
primitives; two distinct objects/arrays are never `===` in JS (identity),
so object/array pairs are modelled as always unequal.  The theorems using
this only ever compare strings and `undefined`. -/
def jsStrictEq : JsVal → JsVal → Bool
  | .undef, .undef => true
  | .null, .null => true
  | .bool a, .bool b => a = b
  | .num a b, .num c d => a == c && b == d
  | .str a, .str b => a = b
  | _, _ => false

/-! ### A model of `JSON.parse`

`fixNonStringValue` in src/index.js falls back to `JSON.parse` for strings
that are not (case-insensitively) `"true"`/`"false"`.  We model the full
JSON value grammar: literals, numbers (sign, integer part without leading
zeros, fraction, exponent — represented exactly as normalized decimals),
strings
with escape sequences (`\uXXXX` taken as a single code point; surrogate
pairs are not recombined), arrays and objects (duplicate keys: last one
wins, as in JS). -/

def lbraceC : Char := Char.ofNat 123

def rbraceC : Char := Char.ofNat 125

def skipWs : List Char → List Char
  | [] => []
  | c :: cs => if isWsC c then skipWs cs else c :: cs

def isDigitC (c : Char) : Bool := '0' ≤ c && c ≤ '9'

def digitVal (c : Char) : Nat := c.toNat - 48

/-- Consume a maximal run of decimal digits, returning their value and
count. -/
def takeDigits : List Char → Nat → Nat → (Nat × Nat × List Char)
  | c :: cs, acc, n =>
      if isDigitC c then takeDigits cs (acc * 10 + digitVal c) (n + 1)
      else (acc, n, c :: cs)
  | [], acc, n => (acc, n, [])

/-- Strip factors of 10 from a mantissa (at most `fuel` of them),
incrementing the exponent, so that equal decimal numbers have equal
representations. -/
def stripTens : Nat → Int → Int → (Int × Int)
  | 0, m, e => (m, e)
  | fuel + 1, m, e =>
      if m % 10 = 0 then stripTens fuel (m / 10) (e + 1) else (m, e)

/-- Normalized decimal number `m * 10 ^ e` as a `JsVal`. -/
def mkNum (m e : Int) : JsVal :=
  if m = 0 then .num 0 0
  else
    let p := stripTens m.natAbs m e
    .num p.1 p.2

/-- Parse a JSON number (sign, integer part, optional fraction and
exponent) into an exact normalized decimal. -/
def parseNum (cs : List Char) : Option (JsVal × List Char) :=
  let (neg, cs) := match cs with
    | '-' :: rest => (true, rest)
    | _ => (false, cs)
  let ip : Option (Nat × List Char) := match cs with
    | '0' :: rest => some (0, rest)
    | c :: _ =>
        if isDigitC c then
          let (v, _, rest) := takeDigits cs 0 0
          some (v, rest)
        else none
    | [] => none
  match ip with
  | none => none
  | some (intPart, cs) =>
      let fr : Option (Nat × Nat × List Char) := match cs with
        | '.' :: rest =>
            let (v, n, rest') := takeDigits rest 0 0
            if n = 0 then none else some (v, n, rest')
        | _ => some (0, 0, cs)
      match fr with
      | none => none
      | some (fracVal, fracLen, cs) =>
          let ex : Option (Int × List Char) := match cs with
            | c :: rest =>
                if c = 'e' || c = 'E' then
                  let (esign, rest) := match rest with
                    | '-' :: r => (true, r)
                    | '+' :: r => (false, r)
                    | r => (false, r)
                  let (v, n, rest') := takeDigits rest 0 0
                  if n = 0 then none
                  else some (if esign then -(v : Int) else (v : Int), rest')
                else some (0, c :: rest)
            | [] => some (0, [])
          match ex with
          | none => none
          | some (e, cs) =>
              let m : Int := (intPart * 10 ^ fracLen + fracVal : Nat)
              let m := if neg then -m else m
              some (mkNum m (e - fracLen), cs)

def hexVal (c : Char) : Option Nat :=
  if isDigitC c then some (c.toNat - 48)
  else if 'a' ≤ c && c ≤ 'f' then some (c.toNat - 87)
  else if 'A' ≤ c && c ≤ 'F' then some (c.toNat - 55)
  else none

/-- Parse the body of a JSON string (after the opening quote); `fuel`
dominates the remaining input length. -/
def parseStrCharsF : Nat → List Char → Option (List Char × List Char)
  | 0, _ => none
  | _, [] => none
  | _ + 1, '"' :: rest => some ([], rest)
  | fuel + 1, '\\' :: e :: rest =>
      let esc : Option (Char × List Char) := match e, rest with
        | '"', r => some ('"', r)
        | '\\', r => some ('\\', r)
        | '/', r => some ('/', r)
        | 'b', r => some (Char.ofNat 8, r)
        | 'f', r => some (Char.ofNat 12, r)
        | 'n', r => some ('\n', r)
        | 'r', r => some ('\r', r)
        | 't', r => some ('\t', r)
        | 'u', h1 :: h2 :: h3 :: h4 :: r =>
            match hexVal h1, hexVal h2, hexVal h3, hexVal h4 with
            | some a, some b, some c, some d =>
                some (Char.ofNat (((a * 16 + b) * 16 + c) * 16 + d), r)
            | _, _, _, _ => none
        | _, _ => none
      match esc with
      | some (c, r) =>
          match parseStrCharsF fuel r with
          | some (cs, rest') => some (c :: cs, rest')
          | none => none
      | none => none
  | fuel + 1, c :: rest =>
      if c.toNat < 32 then none
      else
        match parseStrCharsF fuel rest with
        | some (cs, rest') => some (c :: cs, rest')
        | none => none

/-- Parse the body of a JSON string (after the opening quote). -/
def parseStrChars (cs : List Char) : Option (List Char × List Char) :=
  parseStrCharsF (cs.length + 1) cs

mutual

/-- Parse one JSON value (leading whitespace allowed).  `fuel` dominates
the nesting depth and element count; `jsonParse` supplies `length + 1`,
which always suffices since every element consumes at least one
character. -/
def parseVal : Nat → List Char → Option (JsVal × List Char)
  | 0, _ => none
  | fuel + 1, cs =>
      match skipWs cs with
      | 'n' :: 'u' :: 'l' :: 'l' :: rest => some (.null, rest)
      | 't' :: 'r' :: 'u' :: 'e' :: rest => some (.bool true, rest)
      | 'f' :: 'a' :: 'l' :: 's' :: 'e' :: rest => some (.bool false, rest)
      | '"' :: rest =>
          match parseStrChars rest with
          | some (chars, rest') => some (.str (String.mk chars), rest')
          | none => none
      | '[' :: rest =>
          (match skipWs rest with
           | ']' :: rest' => some (.arr [], rest')
           | cs' => match parseElems fuel cs' with
             | some (xs, rest') => some (.arr xs, rest')
             | none => none)
      | c :: rest =>
          if c = lbraceC then
            match skipWs rest with
            | c' :: rest' =>
                if c' = rbraceC then some (.obj [], rest')
                else
                  (match parseMembers fuel (c' :: rest') [] with
                   | some (fs, rest'') => some (.obj fs, rest'')
                   | none => none)
            | [] => none
          else
            match parseNum (c :: rest) with
            | some (v, rest') => some (v, rest')
            | none => none
      | [] => none

/-- Parse a non-empty comma-separated list of array elements up to `]`. -/
def parseElems : Nat → List Char → Option (List JsVal × List Char)
  | 0, _ => none
  | fuel + 1, cs =>
      match parseVal fuel cs with
      | some (v, rest) =>
          (match skipWs rest with
           | ',' :: rest' =>
               (match parseElems fuel rest' with
                | some (xs, rest'') => some (v :: xs, rest'')
                | none => none)
           | ']' :: rest' => some ([v], rest')
           | _ => none)
      | none => none

/-- Parse non-empty `"key": value` members up to the closing brace;
duplicate keys follow JS semantics (last wins). -/
def parseMembers : Nat → List Char → List (String × JsVal) →
    Option (List (String × JsVal) × List Char)
  | 0, _, _ => none
  | fuel + 1, cs, acc =>
      match skipWs cs with
      | '"' :: rest =>
          (match parseStrChars rest with
           | some (kchars, rest') =>
               (match skipWs rest' with
                | ':' :: rest'' =>
                    (match parseVal fuel rest'' with
                     | some (v, rest3) =>
                         let acc := setFieldL acc (String.mk kchars) v
                         (match skipWs rest3 with
                          | ',' :: rest4 => parseMembers fuel rest4 acc
                          | c :: rest4 =>
                              if c = rbraceC then some (acc, rest4) else none
                          | [] => none)
                     | none => none)
                | _ => none)
           | none => none)
      | _ => none

end

/-- The model of `JSON.parse(s)`: `none` models a thrown `SyntaxError`. -/
def jsonParse (s : String) : Option JsVal :=
  match parseVal (s.length + 1) s.data with
  | some (v, rest) =>
      match skipWs rest with
      | [] => some v
      | _ :: _ => none
  | none => none

/-! ### Errors and effectful helpers -/

/-- Errors thrown by the converter.  `convMsg` is a `SwaggerConverterError`
carrying the message built in the source (where the JS message embeds
runtime-produced text, such as the `JSON.parse` error message or a
`JSON.stringify` dump, we keep only the stable prefix).  `typeMsg` stands
for JS runtime errors (`TypeError`, failed `assert`).  `fuelOut` is fuel
exhaustion of this embedding; it never occurs when the fuel exceeds the
input size, and no theorem below relies on it. -/
inductive ConvErr : Type where
  | convMsg (msg : String) : ConvErr
  | typeMsg (msg : String) : ConvErr
  | fuelOut : ConvErr
deriving DecidableEq

/-- Result type of the embedded converter functions. -/
abbrev JRes (α : Type) : Type := Except ConvErr α

/-- Is the result an error?  (Convenient for stating that a call throws.) -/
def isErr {α : Type} : JRes α → Bool
  | .error _ => true
  | .ok _ => false

/-- `fixNonStringValue(value, skipError)` from src/index.js: coerce
string-encoded booleans/numbers.  Non-strings pass through; the empty
string becomes `undefined`; case-insensitive `"true"`/`"false"` become
booleans; anything else goes through `JSON.parse`, whose failure throws a
`SwaggerConverterError` unless `skipError === true`, in which case the
value silently becomes `undefined`. -/
def fixNonStringValue (value : JsVal) (skipError : Bool) : JRes JsVal :=
  match value with
  | .str s =>
      if s = "" then .ok .undef
      else
        let lc := strToLower s
        if lc = "true" then .ok (.bool true)
        else if lc = "false" then .ok (.bool false)
        else
          match jsonParse s with
          | some v => .ok v
          | none =>
              if skipError then .ok .undef
              else .error (.convMsg "incorect property value")
  | v => .ok v

/-- `Converter.prototype.forEach` from src/index.js, value-only form:
absent collections (`undefined`, `null`, and the empty string, which fails
`isValue`) are skipped silently; other non-objects throw; arrays iterate
in order; objects iterate their values in sorted key order. -/
def jsForEachV {σ : Type} (col : JsVal) (init : σ)
    (f : σ → JsVal → JRes σ) : JRes σ :=
  match col with
  | .arr xs => xs.foldlM f init
  | .obj fs => (sortKeys fs).foldlM (fun s kv => f s kv.2) init
  | v =>
      if isValue v then .error (.convMsg "Expected array or object")
      else .ok init

/-- `Converter.prototype.forEach`, key-and-value form (the iteratee also
receives the key: object keys as strings, array indices as numbers). -/
def jsForEachKV {σ : Type} (col : JsVal) (init : σ)
    (f : σ → JsVal → JsVal → JRes σ) : JRes σ :=
  match col with
  | .arr xs =>
      (xs.enum.foldlM (fun s p => f s p.2 (.num p.1 0)) init)
  | .obj fs => (sortKeys fs).foldlM (fun s kv => f s kv.2 (.str kv.1)) init
  | v =>
      if isValue v then .error (.convMsg "Expected array or object")
      else .ok init

/-- Per-conversion converter state: the known custom type names (collected
from all resources' `models` before translation), the security name map
built by `buildSecurityDefinitions`, and the `collectionFormat` option. -/
structure ConvCtx : Type where
  customTypes : List String
  securityNamesMap : List (String × JsVal)
  collectionFormat : JsVal

/-- The fields of an object value (other values have none). -/
def objFields : JsVal → List (String × JsVal)
  | .obj fs => fs
  | _ => []

/-- JS property write `v[key] = x` where `v` is an object (writes on
non-objects, which JS would drop or reject, are modelled as creating an
object; every use below writes to values that are objects by
construction). -/
def setFieldOf (v : JsVal) (key : String) (x : JsVal) : JsVal :=
  .obj (setFieldL (objFields v) key x)

/-! ### Data type translation

`buildTypeProperties`, `buildDataType` and `buildModel` from src/index.js.
They recurse into nested item/property descriptors, so they are defined
mutually with a fuel parameter; fuel larger than the size of the input
always suffices, and every theorem below either quantifies over the fuel
or instantiates it with a sufficient concrete value. -/

/-- The `typeMap` table of `buildTypeProperties` (keys are already
lowercased at every lookup site). -/
def typeMapLookup : String → Option JsVal
  | "integer" => some (.obj [("type", .str "integer")])
  | "number" => some (.obj [("type", .str "number")])
  | "string" => some (.obj [("type", .str "string")])
  | "boolean" => some (.obj [("type", .str "boolean")])
  | "array" => some (.obj [("type", .str "array")])
  | "object" => some (.obj [("type", .str "object")])
  | "file" => some (.obj [("type", .str "file")])
  | "void" => some (.obj [])
  | "int" => some (.obj [("type", .str "integer"), ("format", .str "int32")])
  | "long" => some (.obj [("type", .str "integer"), ("format", .str "int64")])
  | "float" => some (.obj [("type", .str "number"), ("format", .str "float")])
  | "double" => some (.obj [("type", .str "number"), ("format", .str "double")])
  | "byte" => some (.obj [("type", .str "string"), ("format", .str "byte")])
  | "date" => some (.obj [("type", .str "string"), ("format", .str "date")])
  | "list" => some (.obj [("type", .str "array")])
  | "set" => some (.obj [("type", .str "array"), ("uniqueItems", .bool true)])
  | "any" => some (.obj [])
  | "datetime" => some (.obj [("type", .str "string"), ("format", .str "date-time")])
  | "date-time" => some (.obj [("type", .str "string"), ("format", .str "date-time")])
  | "map" => some (.obj [("type", .str "object")])
  | _ => none

/-- Split before the first `[`; model of the regex
`^([^[]*)\[(.*)\]$` capture groups (the second group runs to the last
character, which must be `]`). -/
def splitFirstLB : List Char → Option (List Char × List Char)
  | [] => none
  | c :: rest =>
      if c = '[' then some ([], rest)
      else
        match splitFirstLB rest with
        | some (a, b) => some (c :: a, b)
        | none => none

/-- The bracket-syntax match of `buildTypeProperties`:
`"<TYPE>[<ITEMS>]"` into `(<TYPE>, <ITEMS>)`, or `none` when the regex
does not match. -/
def bracketSplit (s : String) : Option (String × String) :=
  match splitFirstLB s.data with
  | some (pre, post) =>
      match post.getLast? with
      | some c =>
          if c = ']' then some (String.mk pre, String.mk post.dropLast)
          else none
      | none => none
  | none => none

/-- JS `s.indexOf(c)`: `-1` when absent. -/
def jsIndexOfChar (s : String) (c : Char) : Int :=
  match s.data.findIdx? (fun x => x = c) with
  | some i => (i : Int)
  | none => -1

/-- JS `s.slice(0, e)` (negative `e` counts from the end). -/
def jsSliceTo (s : String) (e : Int) : String :=
  let n : Int := s.length
  let e' := if e < 0 then max (n + e) 0 else min e n
  String.mk (s.data.take e'.toNat)

/-- JS `s.slice(b)` (negative `b` counts from the end). -/
def jsSliceFrom (s : String) (b : Int) : String :=
  let n : Int := s.length
  let b' := if b < 0 then max (n + b) 0 else min b n
  String.mk (s.data.drop b'.toNat)

/-- The fallback of `buildTypeProperties` for a name that is neither a
known primitive nor bracket syntax: a definitions `$ref` when references
are allowed, a verbatim `{type: name}` otherwise. -/
def typeNameFallback (t : String) (allowRef : Bool) : JsVal :=
  if allowRef then .obj [("$ref", .str ("#/definitions/" ++ t))]
  else .obj [("type", .str t)]

mutual

/-- `Converter.prototype.buildTypeProperties` from src/index.js: falsy
type names yield `{}`; a known custom type yields a `$ref` when references
are allowed; otherwise the `typeMap` table, the `"<TYPE>[<ITEMS>]"` and
`"Map[String,<VALUES>]"` collection syntaxes, and the tolerant fallback.
Truthy non-string names throw in JS (`oldType.trim` is not a function) and
are errors here. -/
def buildTypeProperties (ct : List String) :
    Nat → JsVal → Bool → JRes JsVal
  | 0, _, _ => .error .fuelOut
  | fuel + 1, oldType, allowRef =>
      if !jsTruthy oldType then .ok (.obj [])
      else
        match oldType with
        | .str s =>
            let t := strTrim s
            if allowRef && ct.contains t then
              .ok (.obj [("$ref", .str ("#/definitions/" ++ t))])
            else
              match typeMapLookup (strToLower t) with
              | some v => .ok v
              | none =>
                  match bracketSplit t with
                  | some (coll, items) =>
                      let collection := strToLower coll
                      if collection = "map" then
                        let commaIndex := jsIndexOfChar items ','
                        let keyType := jsSliceTo items commaIndex
                        let valueType := jsSliceFrom items (commaIndex + 1)
                        if strToLower keyType = "string" then do
                          let ap ← buildTypeProperties ct fuel
                            (.str valueType) allowRef
                          .ok (.obj [("additionalProperties", ap)])
                        else .ok (typeNameFallback t allowRef)
                      else
                        match typeMapLookup collection with
                        | some tv => do
                            let it ← buildTypeProperties ct fuel
                              (.str items) allowRef
                            .ok (setFieldOf tv "items" it)
                        | none => .ok (typeNameFallback t allowRef)
                  | none => .ok (typeNameFallback t allowRef)
        | _ => .error (.typeMsg "oldType.trim is not a function")

/-- `Converter.prototype.buildDataType` from src/index.js: translate a
data-type descriptor (type name from `type`/`dataType`/`responseClass`/
`$ref`, nested `items`, coerced `uniqueItems`/`minimum`/`maximum`, the
`default`/`defaultValue` unification with silent fallback for non-string
types, `format`/`enum` passthrough, and the `items: {}` completion for
arrays).  Falsy descriptors yield `{}`; truthy non-object descriptors fail
the source's `assert`. -/
def buildDataType (ct : List String) : Nat → JsVal → Bool → JRes JsVal
  | 0, _, _ => .error .fuelOut
  | fuel + 1, old, allowRef =>
      if !jsTruthy old then .ok (.obj [])
      else
        match old with
        | .str _ | .num _ _ | .bool _ =>
            .error (.typeMsg "assert failed: typeof oldDataType is object")
        | _ => do
            let oldTypeName := jsOr (getField old "type")
              (jsOr (getField old "dataType")
                (jsOr (getField old "responseClass") (getField old "$ref")))
            let result ← buildTypeProperties ct fuel oldTypeName allowRef
            let oldItems0 := getField old "items"
            let oldItems ←
              if isValue oldItems0 then
                let oi := match oldItems0 with
                  | .str s => .obj [("type", .str s)]
                  | v => v
                buildDataType ct fuel oi allowRef
              else pure oldItems0
            let d0 := jsOr (getField old "default") (getField old "defaultValue")
            let defaultValue ←
              if isStr (getField result "type") "string" then pure d0
              else fixNonStringValue d0 true
            let uniq ← fixNonStringValue (getField old "uniqueItems") false
            let mini ← fixNonStringValue (getField old "minimum") false
            let maxi ← fixNonStringValue (getField old "maximum") false
            let fs := assignFields (objFields result)
              [("format", getField old "format"),
               ("items", oldItems),
               ("uniqueItems", uniq),
               ("minimum", mini),
               ("maximum", maxi),
               ("default", defaultValue),
               ("enum", getField old "enum")]
            let fs :=
              if isStr (lookupF fs "type") "array" && !isValue (lookupF fs "items")
              then setFieldL fs "items" (.obj [])
              else fs
            .ok (.obj fs)

/-- `Converter.prototype.buildModel` from src/index.js: walk `properties`
(collecting `required` names from property-level flags unless the model
has an explicit `required` array), translate nested `items`, and extend
the model's own translated data type with description, required,
properties, discriminator and example. -/
def buildModel (ct : List String) : Nat → JsVal → JRes JsVal
  | 0, _ => .error .fuelOut
  | fuel + 1, old => do
      let st ← jsForEachKV (getField old "properties")
        (([] : List JsVal), ([] : List (String × JsVal)))
        (fun st v k => do
          let r ← fixNonStringValue (getField v "required") false
          let req := if isTrue r then st.1 ++ [k] else st.1
          let pm ← buildModel ct fuel v
          pure (req, setFieldL st.2 (jsToString k) pm))
      let required := match getField old "required" with
        | .arr xs => xs
        | _ => st.1
      let items ←
        if isValue (getField old "items") then
          buildModel ct fuel (getField old "items")
        else pure .undef
      let base ← buildDataType ct fuel old true
      .ok (.obj (assignFields (objFields base)
        [("description", getField old "description"),
         ("required", undefinedIfEmpty (.arr required)),
         ("properties", undefinedIfEmpty (.obj st.2)),
         ("discriminator", getField old "discriminator"),
         ("example", getField old "example"),
         ("items", undefinedIfEmpty items)]))

end

/-! ### Definitions (models) and inheritance flattening -/

/-- First pass of `Converter.prototype.buildDefinitions`: translate every
model of the resource (in sorted key order). -/
def translateModels (ct : List String) (fuel : Nat) (oldModels : JsVal) :
    JRes (List (String × JsVal)) :=
  jsForEachKV oldModels [] (fun ms om mid => do
    let bm ← buildModel ct fuel om
    pure (setFieldL ms (jsToString mid) bm))

/-- One child resolution step of the `subTypes` pass of
`Converter.prototype.buildDefinitions`: look the child up among the
translated models (a missing child is a fatal error), wrap the child's
schema as `{allOf: [child, {$ref: "#/definitions/" + parentId}]}` when it
has no `allOf` yet, and push the parent reference onto an existing
`allOf` otherwise. -/
def subTypesInner (parentId : JsVal) (ms : List (String × JsVal))
    (childId : JsVal) : JRes (List (String × JsVal)) :=
  if !isValue (lookupF ms (jsToString childId)) then
    .error (.convMsg ("subTypes resolution: Missing \"" ++
      jsToString childId ++ "\" type"))
  else if !isValue (getField (lookupF ms (jsToString childId)) "allOf") then
    pure (setFieldL ms (jsToString childId)
      (.obj [("allOf", .arr [lookupF ms (jsToString childId),
        .obj [("$ref", .str ("#/definitions/" ++ jsToString parentId))]])]))
  else
    match getField (lookupF ms (jsToString childId)) "allOf" with
    | .arr xs =>
        pure (setFieldL ms (jsToString childId)
          (setFieldOf (lookupF ms (jsToString childId)) "allOf"
            (.arr (xs ++ [.obj [("$ref",
              .str ("#/definitions/" ++ jsToString parentId))]]))))
    | _ => .error (.typeMsg "allOf.push is not a function")

/-- Second pass of `Converter.prototype.buildDefinitions`: for every
parent that lists `subTypes`, apply `subTypesInner` for each child. -/
def applySubTypes (oldModels : JsVal) (models : List (String × JsVal)) :
    JRes (List (String × JsVal)) :=
  jsForEachKV oldModels models (fun ms parent parentId =>
    jsForEachV (getField parent "subTypes") ms (subTypesInner parentId))

/-- `Converter.prototype.buildDefinitions` from src/index.js. -/
def buildDefinitions (ct : List String) (fuel : Nat) (oldModels : JsVal) :
    JRes JsVal := do
  let ms ← translateModels ct fuel oldModels
  let ms ← applySubTypes oldModels ms
  pure (.obj ms)

/-! ### Parameter translation -/

/-- Does the field name match the source's vendor-extension test, the
case-insensitive regex match of `X-` at the start of the name? -/
def isXDashKey (k : String) : Bool :=
  match k.data with
  | c1 :: c2 :: _ => (c1 = 'X' || c1 = 'x') && c2 = '-'
  | _ => false

/-- The vendor-extension copy loop of `buildParameter`: the source
iterates the parameter's keys in sorted order and copies every field whose
name starts with `X-` (case-insensitive) onto the output parameter; copying
only the matching
entries of the sorted field list is the same fold with the skipped
iterations removed.  A non-object truthy parameter makes the source's
`forEach` throw (or, for a non-empty array, makes `name.match` throw on
the numeric index). -/
def copyXFields (params : List (String × JsVal)) (old : JsVal) :
    JRes (List (String × JsVal)) :=
  match old with
  | .obj fs =>
      .ok ((sortKeys (fs.filter (fun p => isXDashKey p.1))).foldl
        (fun d kv => setFieldL d kv.1 kv.2) params)
  | .arr [] => .ok params
  | .arr (_ :: _) => .error (.typeMsg "name.match is not a function")
  | v =>
      if isValue v then .error (.convMsg "Expected array or object")
      else .ok params

/-- First step of the missing-type defaulting applied by `buildParameter`
to non-body schemas: no `type` becomes `string`. -/
def defaultParamType1 (schema : JsVal) : JsVal :=
  if !isValue (getField schema "type") then setFieldOf schema "type" (.str "string")
  else schema

/-- The missing-type defaulting applied by `buildParameter` to non-body
schemas: no `type` becomes `string`, and an `array` whose `items` lack a
`type` gets `items.type = 'string'`. -/
def defaultParamType (schema : JsVal) : JsVal :=
  if isStr (getField (defaultParamType1 schema) "type") "array" &&
      !isValue (getField (getField (defaultParamType1 schema) "items") "type") then
    setFieldOf (defaultParamType1 schema) "items"
      (setFieldOf (getField (defaultParamType1 schema) "items") "type" (.str "string"))
  else defaultParamType1 schema

/-- The base output fields of `buildParameter` (location, description,
name and coerced required flag). -/
def baseParam (old req : JsVal) : List (String × JsVal) :=
  assignFields []
    [("in", getField old "paramType"),
     ("description", getField old "description"),
     ("name", getField old "name"),
     ("required", req)]

/-- The `form` → `formData` rename of `buildParameter`. -/
def formRename (p1 : List (String × JsVal)) : List (String × JsVal) :=
  if isStr (lookupF p1 "in") "form" then setFieldL p1 "in" (.str "formData")
  else p1

/-- The body branch tail of `buildParameter`: attach the schema and
default the parameter name to `body`. -/
def bodyTail (p2 : List (String × JsVal)) (schema : JsVal) :
    List (String × JsVal) :=
  if !isValue (lookupF (setFieldL p2 "schema" schema) "name") then
    setFieldL (setFieldL p2 "schema" schema) "name" (.str "body")
  else setFieldL p2 "schema" schema

/-- The `allowMultiple` array wrap of `buildParameter`. -/
def amWrap (s2 am : JsVal) : JsVal :=
  if isTrue am && !isStr (getField s2 "type") "array" then
    .obj [("type", .str "array"), ("items", s2)]
  else s2

/-- The forced `required` flag of `buildParameter` for path parameters. -/
def pathRequired (p2 : List (String × JsVal)) (s3 : JsVal) : JsVal :=
  if isStr (lookupF p2 "in") "path" then setFieldOf s3 "required" (.bool true)
  else s3

/-- The `collectionFormat` option of `buildParameter`. -/
def applyCollectionFormat (ctx : ConvCtx) (p2 : List (String × JsVal))
    (s4 : JsVal) : JsVal :=
  if isValue ctx.collectionFormat && isStr (getField s4 "type") "array" then
    if !jsStrictEq ctx.collectionFormat (.str "multi") ||
        !(isStr (lookupF p2 "in") "path" || isStr (lookupF p2 "in") "formData")
    then setFieldOf s4 "collectionFormat" ctx.collectionFormat
    else s4
  else s4

/-- The full non-body schema pipeline of `buildParameter`. -/
def nonBodyTail (ctx : ConvCtx) (p2 : List (String × JsVal))
    (schema am : JsVal) : JsVal :=
  applyCollectionFormat ctx p2
    (pathRequired p2 (amWrap (defaultParamType schema) am))

/-- `Converter.prototype.buildParameter` from src/index.js.  Base fields,
vendor-extension copy, the `form` → `formData` rename, the body branch
(reference resolution enabled, default name `body`), and the non-body
branch: reference resolution disabled, missing-type defaulting, the
`allowMultiple` array wrap, the forced `required` for path parameters and
the `collectionFormat` option. -/
def buildParameter (ctx : ConvCtx) (fuel : Nat) (old : JsVal) : JRes JsVal :=
  match fuel with
  | 0 => .error .fuelOut
  | fuel + 1 => do
      let req ← fixNonStringValue (getField old "required") false
      let p0 := assignFields []
        [("in", getField old "paramType"),
         ("description", getField old "description"),
         ("name", getField old "name"),
         ("required", req)]
      let p1 ← copyXFields p0 old
      let p2 :=
        if isStr (lookupF p1 "in") "form" then setFieldL p1 "in" (.str "formData")
        else p1
      if isStr (getField old "paramType") "body" then do
        let schema ← buildDataType ctx.customTypes fuel old true
        let p3 := setFieldL p2 "schema" schema
        let p4 :=
          if !isValue (lookupF p3 "name") then setFieldL p3 "name" (.str "body")
          else p3
        pure (.obj p4)
      else do
        let schema ← buildDataType ctx.customTypes fuel old false
        let s2 := defaultParamType schema
        let am ← fixNonStringValue (getField old "allowMultiple") false
        let s3 :=
          if isTrue am && !isStr (getField s2 "type") "array" then
            .obj [("type", .str "array"), ("items", s2)]
          else s2
        let s4 :=
          if isStr (lookupF p2 "in") "path" then setFieldOf s3 "required" (.bool true)
          else s3
        let cf := ctx.collectionFormat
        let s5 :=
          if isValue cf && isStr (getField s4 "type") "array" then
            if !jsStrictEq cf (.str "multi") ||
                !(isStr (lookupF p2 "in") "path" || isStr (lookupF p2 "in") "formData")
            then setFieldOf s4 "collectionFormat" cf
            else s4
          else s4
        pure (.obj (assignFields p2 (objFields s5)))

/-! ### Responses -/

/-- `Converter.prototype.buildResponses` from src/index.js: a synthetic
default `200` response, then every `responseMessages` entry keyed by its
stringified code (with translated `responseModel` schemas), and finally
the operation's own data type merged into the `200` entry when non-empty. -/
def buildResponses (ctx : ConvCtx) (fuel : Nat) (old : JsVal) : JRes JsVal :=
  match fuel with
  | 0 => .error .fuelOut
  | fuel + 1 => do
      let r0 : List (String × JsVal) :=
        [("200", .obj [("description", .str "No response was specified")])]
      let r1 ← jsForEachV (getField old "responseMessages") r0
        (fun rs oldResponse => do
          let code := jsToString (getField oldResponse "code")
          let sch ← buildTypeProperties ctx.customTypes fuel
            (getField oldResponse "responseModel") true
          let entry := assignFields []
            [("description",
              jsOr (getField oldResponse "message") (.str "Description was not specified")),
             ("schema", undefinedIfEmpty sch)]
          pure (setFieldL rs code (.obj entry)))
      let opSchema ← buildDataType ctx.customTypes fuel old true
      let e200 := assignFields (objFields (lookupF r1 "200"))
        [("schema", undefinedIfEmpty opSchema)]
      pure (.obj (setFieldL r1 "200" (.obj e200)))

/-! ### Security requirements, operations -/

/-- `Converter.prototype.buildSecurity` from src/index.js: expand each
legacy authorization reference through the security name map into one
requirement object per mapped name, with the scope names collected from
the reference. -/
def buildSecurity (ctx : ConvCtx) (oldAuthorizations : JsVal) : JRes JsVal := do
  let sec ← jsForEachKV oldAuthorizations ([] : List JsVal)
    (fun sec oldScopes oldName => do
      let names0 := lookupF ctx.securityNamesMap (jsToString oldName)
      let names := if isEmpty names0 then .arr [.str (jsToString oldName)] else names0
      jsForEachV names sec (fun sec name => do
        let scopes ← jsForEachV oldScopes ([] : List JsVal)
          (fun acc oldScope => pure (acc ++ [getField oldScope "scope"]))
        pure (sec ++ [.obj [(jsToString name, .arr scopes)]])))
  pure (.arr sec)

/-- JS `===`-based `lastIndexOf` (object elements compare by identity in
JS; the converter only deduplicates strings, where structural equality
coincides). -/
def lastIdxOf (xs : List JsVal) (v : JsVal) : Int :=
  match xs.enum.filter (fun p => jsStrictEq p.2 v) |>.getLast? with
  | some p => (p.1 : Int)
  | none => -1

/-- `removeDuplicates` from src/index.js: keep present values whose last
occurrence is at their own index. -/
def removeDuplicates (xs : List JsVal) : List JsVal :=
  (xs.enum.filter (fun p => isValue p.2 && lastIdxOf xs p.2 = (p.1 : Int))).map
    Prod.snd

/-- JS `a.concat(b)` for the tag lists of `buildOperation` (both sides are
arrays in every reachable use; other receivers are modelled loosely). -/
def jsConcat : JsVal → JsVal → JsVal
  | .arr xs, .arr ys => .arr (xs ++ ys)
  | .arr xs, v => .arr (xs ++ [v])
  | .str a, b => .str (a ++ jsToString b)
  | a, _ => a

/-- The elements of an array value. -/
def arrElems : JsVal → List JsVal
  | .arr xs => xs
  | _ => []

/-- `Converter.prototype.buildOperation` from src/index.js: translate the
parameters, merge and deduplicate tags, then assemble the operation from
the containing declaration's defaults and the operation's own fields
(including the coerced `deprecated`, the responses and the expanded
security requirements). -/
def buildOperation (ctx : ConvCtx) (fuel : Nat) (old defaults : JsVal) :
    JRes JsVal :=
  match fuel with
  | 0 => .error .fuelOut
  | fuel + 1 => do
      let params ← jsForEachV (getField old "parameters") ([] : List JsVal)
        (fun ps op => do
          let p ← buildParameter ctx fuel op
          pure (ps ++ [p]))
      let tags := jsConcat (jsOr (getField defaults "tags") (.arr []))
        (jsOr (getField old "tags") (.arr []))
      let tags := removeDuplicates (arrElems tags)
      let deprecatedV ← fixNonStringValue (getField old "deprecated") false
      let responses ← buildResponses ctx fuel old
      let security ← buildSecurity ctx (getField old "authorizations")
      pure (.obj (assignFields (assignFields [] (objFields defaults))
        [("operationId", getField old "nickname"),
         ("summary", getField old "summary"),
         ("description", jsOr (getField old "description") (getField old "notes")),
         ("tags", undefinedIfEmpty (.arr tags)),
         ("deprecated", deprecatedV),
         ("produces", getField old "produces"),
         ("consumes", getField old "consumes"),
         ("parameters", undefinedIfEmpty (.arr params)),
         ("responses", responses),
         ("security", undefinedIfEmpty security)]))

/-! ### Info section -/

/-- `Converter.prototype.buildInfo` from src/index.js: placeholder title
and defaulted version, then the legacy `info` fields (empty strings are
dropped by `extend` exactly like absent fields), with `contact` and
`license` synthesized and dropped when empty. -/
def buildInfo (rl : JsVal) : JsVal :=
  let info : List (String × JsVal) :=
    [("title", .str "Title was not specified"),
     ("version", jsOr (getField rl "apiVersion") (.str "1.0.0"))]
  let oldInfo := getField rl "info"
  if !isValue oldInfo then .obj info
  else
    let contact := assignFields [] [("email", getField oldInfo "contact")]
    let license :=
      if isValue (getField oldInfo "license") then
        JsVal.obj (assignFields []
          [("name", getField oldInfo "license"),
           ("url", getField oldInfo "licenseUrl")])
      else .undef
    .obj (assignFields info
      [("title", getField oldInfo "title"),
       ("description", getField oldInfo "description"),
       ("contact", undefinedIfEmpty (.obj contact)),
       ("license", undefinedIfEmpty license),
       ("termsOfService", getField oldInfo "termsOfServiceUrl")])

/-! ### Resource collection -/

/-- Is a root-listing entry "embedded" (no `path`, or non-empty
`operations`)?  This is the test `getResources` applies to each entry. -/
def isEmbeddedEntry (e : JsVal) : Bool :=
  !isValue (getField e "path") || !isEmpty (getField e "operations")

/-- Does the entry's `path` resolve to a present declaration in the map? -/
def resolvesIn (decls e : JsVal) : Bool :=
  isValue (getField decls (jsToString (getField e "path")))

/-- The declarations a list of referenced entries resolves to, in order. -/
def resolveRefs (decls : JsVal) (refs : List JsVal) : List JsVal :=
  refs.map (fun e => getField decls (jsToString (getField e "path")))

/-- One iteration of the `getResources` loop over the root listing's
`apis` (state: resolved resources so far, and whether an embedded entry
was seen). -/
def resourceStep (decls : JsVal) (st : List JsVal × Bool) (resource : JsVal) :
    JRes (List JsVal × Bool) :=
  if isEmbeddedEntry resource then .ok (st.1, true)
  else if st.2 then
    .error (.convMsg
      "Resource listing can not have both operations and API declarations.")
  else if !resolvesIn decls resource then
    .error (.convMsg
      ("resourceListing addressing missing declaration on path: " ++
        jsToString (getField resource "path")))
  else .ok (st.1 ++ [getField decls (jsToString (getField resource "path"))], st.2)

/-- `Converter.prototype.getResources` from src/index.js: walk the root
listing's `apis`; an entry without a `path` or with non-empty `operations`
marks the listing as embedded; a referenced entry after that is the
mixed-declaration fatal error; otherwise referenced entries resolve
through the declarations map (a miss is fatal).  An embedded listing
yields itself as the single resource. -/
def getResources (rl decls : JsVal) : JRes (List JsVal) := do
  let st ← jsForEachV (getField rl "apis") (([] : List JsVal), false)
    (resourceStep decls)
  pure (if st.2 then [rl] else st.1)

/-! ### Base path aggregation

`buildPathComponents` uses the `urijs` library in the source; we model the
URL split into protocol, host and path for the shapes that reach it
(absolute `scheme://host/path` URLs and plain paths).  Dot-segment
normalization and query handling are simplified; no theorem below depends
on them. -/

structure UriParts : Type where
  protocol : String
  host : String
  pathPart : String

/-- Split a character list at the first occurrence of `://`. -/
def splitProto : List Char → Option (List Char × List Char)
  | ':' :: '/' :: '/' :: rest => some ([], rest)
  | c :: rest =>
      match splitProto rest with
      | some (a, b) => some (c :: a, b)
      | none => none
  | [] => none

/-- Simplified model of `URI(s)`: split off `protocol://host`. -/
def uriParse (s : String) : UriParts :=
  match splitProto s.data with
  | some (pre, rest) =>
      { protocol := String.mk pre,
        host := String.mk (rest.takeWhile (fun c => c ≠ '/')),
        pathPart := String.mk (rest.dropWhile (fun c => c ≠ '/')) }
  | none => { protocol := "", host := "", pathPart := s }

/-- `Converter.prototype.buildPathComponents` from src/index.js: falsy
base paths yield nothing; otherwise split into `host`, `basePath` and
`schemes`, with empty components dropped by `extend` (an empty string
fails `isValue`). -/
def buildPathComponents (basePath : JsVal) : List (String × JsVal) :=
  if !jsTruthy basePath then []
  else
    let s := jsToString basePath
    let u := uriParse s
    let p :=
      if u.protocol = "" && u.host = "" && !(strStartsWith s "/") then "/" ++ u.pathPart
      else u.pathPart
    assignFields []
      [("host", .str u.host),
       ("basePath", .str p),
       ("schemes", if u.protocol = "" then .undef else .arr [.str u.protocol])]

/-- The relative-base-path test of `aggregatePathComponents`: the regex
`/^\.\.?(\/|$)/` (JS would coerce non-strings to strings first; no such
coercion ever matches, since `"undefined"`, `"null"`, numbers and
`[object Object]` never start with a dot-segment). -/
def isRelativeBasePath : JsVal → Bool
  | .str s => s = "." || s = ".." || strStartsWith s "./" || strStartsWith s "../"
  | _ => false

/-- Collapse `.` and `..` segments (model of the resolution `urijs`
performs in `absoluteTo`). -/
def collapseSegs : List String → List String → List String
  | [], acc => acc.reverse
  | "." :: rest, acc => collapseSegs rest acc
  | ".." :: rest, acc => collapseSegs rest (acc.drop 1)
  | s :: rest, acc => collapseSegs rest (s :: acc)

/-- Split a string on `/`. -/
def splitSlash (s : String) : List String :=
  (s.data.foldr
    (fun x acc => match acc with
      | g :: gs => if x = '/' then [] :: g :: gs else (x :: g) :: gs
      | [] => [[x]])
    [[]]).map String.mk

/-- Join path segments with `/`. -/
def joinSlash : List String → String
  | [] => ""
  | [x] => x
  | x :: xs => x ++ "/" ++ joinSlash xs

/-- Model of `URI(rel).absoluteTo(base).path(true)` for the relative
branch of `aggregatePathComponents` (drop the base's last segment, append
the relative path, collapse dot segments). -/
def resolveRelative (rel : String) (baseV : JsVal) : JsVal :=
  let base := jsToString baseV
  let segs := (splitSlash base).dropLast ++ splitSlash rel
  .str (joinSlash (collapseSegs segs []))

/-- The base path a declaration contributes: its own `basePath`, resolved
against the root's when relative. -/
def declBasePath (pathC : List (String × JsVal)) (api : JsVal) : JsVal :=
  if isRelativeBasePath (getField api "basePath") then
    resolveRelative (jsToString (getField api "basePath")) (lookupF pathC "basePath")
  else getField api "basePath"

/-- One iteration of the base-path aggregation loop: once a global base
path is established (`isValue`), any declaration whose resolved base path
is not strictly equal to it is the conflicting-base-path fatal error. -/
def basePathStep (pathC : List (String × JsVal)) (g api : JsVal) : JRes JsVal :=
  if isValue g && !jsStrictEq (declBasePath pathC api) g then
    .error (.convMsg "Resources can not override each other basePaths")
  else pure (declBasePath pathC api)

/-- `Converter.prototype.aggregatePathComponents` from src/index.js: the
root's components, then a pass over the declarations in which each
`basePath` (relative ones resolved against the root's) must strictly equal
the previously established one whenever one was established — otherwise
the conflicting-base-path fatal error — and finally the components of the
last established base path override the root's. -/
def aggregatePathComponents (rl decls : JsVal) : JRes JsVal := do
  let pathC := assignFields [] (buildPathComponents (getField rl "basePath"))
  let g ← jsForEachV decls .undef (basePathStep pathC)
  pure (.obj (assignFields pathC (buildPathComponents g)))

/-! ## Lemma toolkit -/

/-- Keys of a field list. -/
def keysOf (fs : List (String × JsVal)) : List String := fs.map Prod.fst

/-- A field list with no duplicate keys (true of every object the
converter constructs, and of JSON-parsed input objects). -/
def NodupKeys (fs : List (String × JsVal)) : Prop := (keysOf fs).Nodup

/-- Every key of the field list belongs to `allow`. -/
def KeysIn (fs : List (String × JsVal)) (allow : List String) : Prop :=
  ∀ p ∈ fs, p.1 ∈ allow

/-! ## Key inventory of translated data types

`buildTypeProperties`, `buildDataType` and `buildModel` only ever emit a
fixed, known set of field names; in particular, with reference resolution
disabled no `$ref` key is ever produced, and `buildModel` never produces
an `allOf` key.  These facts drive claims C1, C2, C6 and C7. -/

/-- Keys `buildTypeProperties` can emit (`$ref` only when references are
allowed). -/
def btpKeysA (allowRef : Bool) : List String :=
  ["type", "format", "uniqueItems", "items", "additionalProperties"] ++
    (if allowRef then ["$ref"] else [])

/-- Keys `buildDataType` can emit. -/
def bdtKeysA (allowRef : Bool) : List String :=
  btpKeysA allowRef ++ ["minimum", "maximum", "default", "enum"]

/-- Keys `buildModel` can emit. -/
def modelKeys : List String :=
  bdtKeysA true ++ ["description", "required", "properties", "discriminator",
    "example"]

/-- The inventory invariant of the data-type translators: the result is a
duplicate-free object with keys among `allow`, and its `items` field (when
it is an object at all) again has keys among `allow`. -/
def ObjInv (v : JsVal) (allow : List String) : Prop :=
  ∃ fs, v = .obj fs ∧ KeysIn fs allow ∧ NodupKeys fs ∧
    KeysIn (objFields (getField v "items")) allow

/-- The keys a non-body parameter schema can carry. -/
def paramSchemaKeys : List String :=
  bdtKeysA false ++ ["required", "collectionFormat"]

/-- The descriptor fields whose absence makes a data type translate to
the empty object (plus `responseMessages` for the responses map). -/
def descriptorKeys : List String :=
  ["type", "dataType", "responseClass", "$ref", "items", "format",
   "uniqueItems", "minimum", "maximum", "default", "defaultValue", "enum",
   "responseMessages"]

theorem getField_obj (fs : List (String × JsVal)) (k : String) :
    getField (.obj fs) k = lookupF fs k := rfl

theorem lookupF_of_not_mem {fs : List (String × JsVal)} {k : String}
    (h : k ∉ keysOf fs) : lookupF fs k = .undef := by
  induction fs with
  | nil => rfl
  | cons p rest ih =>
      simp only [keysOf, List.map_cons, List.mem_cons, not_or] at h
      simp only [lookupF]
      rw [if_neg (fun hh => h.1 hh.symm)]
      exact ih h.2

theorem any_key_eq_false_iff {fs : List (String × JsVal)} {k : String} :
    fs.any (fun p => p.1 == k) = false ↔ k ∉ keysOf fs := by
  rw [Bool.eq_false_iff]
  constructor
  · intro h hk
    apply h
    simp only [keysOf, List.mem_map] at hk
    obtain ⟨p, hp, hpk⟩ := hk
    exact List.any_eq_true.mpr ⟨p, hp, by simp [hpk]⟩
  · intro h hany
    apply h
    obtain ⟨p, hp, hpk⟩ := List.any_eq_true.mp hany
    simp only [beq_iff_eq] at hpk
    exact hpk ▸ List.mem_map.mpr ⟨p, hp, rfl⟩

theorem lookupF_replaceMap_self {fs : List (String × JsVal)} {k : String}
    (v : JsVal) (h : k ∈ keysOf fs) :
    lookupF (fs.map (fun p => if p.1 = k then (k, v) else p)) k = v := by
  induction fs with
  | nil => simp [keysOf] at h
  | cons p rest ih =>
      by_cases hp : p.1 = k
      · simp [lookupF, hp]
      · simp only [List.map_cons, if_neg hp, lookupF]
        apply ih
        simp only [keysOf, List.map_cons, List.mem_cons] at h
        exact h.resolve_left (fun hh => hp hh.symm)

theorem lookupF_replaceMap_ne {fs : List (String × JsVal)} {k k' : String}
    (v : JsVal) (h : k' ≠ k) :
    lookupF (fs.map (fun p => if p.1 = k then (k, v) else p)) k' =
      lookupF fs k' := by
  induction fs with
  | nil => rfl
  | cons p rest ih =>
      by_cases hp : p.1 = k
      · simp only [List.map_cons, if_pos hp, lookupF]
        rw [if_neg (fun hh => h hh.symm), if_neg (fun hh => h (hp ▸ hh).symm), ih]
      · simp only [List.map_cons, if_neg hp, lookupF, ih]

theorem lookupF_append (l1 l2 : List (String × JsVal)) (k : String) :
    lookupF (l1 ++ l2) k =
      (if k ∈ keysOf l1 then lookupF l1 k else lookupF l2 k) := by
  induction l1 with
  | nil => simp [keysOf, lookupF]
  | cons p rest ih =>
      simp only [List.cons_append, lookupF, keysOf, List.map_cons, List.mem_cons,
        List.append_eq]
      by_cases hp : p.1 = k
      · simp [hp, lookupF]
      · rw [if_neg hp, ih, if_neg hp]
        simp only [keysOf]
        by_cases hm : k ∈ rest.map Prod.fst
        · rw [if_pos hm, if_pos (Or.inr hm)]
        · rw [if_neg hm,
            if_neg (by rintro (hh | hh); exact hp hh.symm; exact hm hh)]

theorem lookupF_setFieldL_self (fs : List (String × JsVal)) (k : String)
    (v : JsVal) : lookupF (setFieldL fs k v) k = v := by
  unfold setFieldL
  by_cases h : fs.any (fun p => p.1 == k) = true
  · rw [if_pos h]
    apply lookupF_replaceMap_self
    by_contra hnm
    rw [any_key_eq_false_iff.mpr hnm] at h
    exact Bool.false_ne_true h
  · rw [if_neg h, lookupF_append]
    have hnm := any_key_eq_false_iff.mp (Bool.eq_false_iff.mpr h)
    rw [if_neg hnm]
    simp [lookupF]

theorem lookupF_setFieldL_ne (fs : List (String × JsVal)) {k k' : String}
    (v : JsVal) (h : k' ≠ k) :
    lookupF (setFieldL fs k v) k' = lookupF fs k' := by
  unfold setFieldL
  by_cases hany : fs.any (fun p => p.1 == k) = true
  · rw [if_pos hany]
    exact lookupF_replaceMap_ne v h
  · rw [if_neg hany, lookupF_append]
    by_cases hm : k' ∈ keysOf fs
    · rw [if_pos hm]
    · rw [if_neg hm, lookupF_of_not_mem hm]
      simp only [lookupF]
      rw [if_neg (fun hh => h hh.symm)]

theorem keysOf_setFieldL (fs : List (String × JsVal)) (k : String) (v : JsVal) :
    keysOf (setFieldL fs k v) =
      if fs.any (fun p => p.1 == k) then keysOf fs else keysOf fs ++ [k] := by
  unfold setFieldL
  by_cases h : fs.any (fun p => p.1 == k) = true
  · rw [if_pos h, if_pos h]
    simp only [keysOf, List.map_map]
    apply List.map_congr_left
    intro p _
    by_cases hp : p.1 = k
    · simp [hp]
    · simp [hp]
  · rw [if_neg h, if_neg h]
    simp [keysOf]

theorem nodupKeys_setFieldL {fs : List (String × JsVal)} (k : String)
    (v : JsVal) (h : NodupKeys fs) : NodupKeys (setFieldL fs k v) := by
  unfold NodupKeys
  rw [keysOf_setFieldL]
  by_cases hany : fs.any (fun p => p.1 == k) = true
  · rw [if_pos hany]; exact h
  · rw [if_neg hany]
    have hnm := any_key_eq_false_iff.mp (Bool.eq_false_iff.mpr hany)
    exact h.append (List.nodup_singleton k)
      (by intro a ha hb; simp at hb; exact hnm (hb ▸ ha))

theorem nodupKeys_assignFields {d : List (String × JsVal)}
    (src : List (String × JsVal)) (h : NodupKeys d) :
    NodupKeys (assignFields d src) := by
  induction src generalizing d with
  | nil => exact h
  | cons p rest ih =>
      show NodupKeys (assignFields (if isValue p.2 then setFieldL d p.1 p.2 else d) rest)
      by_cases hv : isValue p.2 = true
      · rw [if_pos hv]; exact ih (nodupKeys_setFieldL p.1 p.2 h)
      · rw [if_neg hv]; exact ih h

/-- The workhorse for reading a field of an `extend` result: a key present
with a real value in the (duplicate-free) source wins, otherwise the
destination shows through. -/
theorem lookupF_assignFields {src : List (String × JsVal)}
    (hsrc : NodupKeys src) (d : List (String × JsVal)) (k : String) :
    lookupF (assignFields d src) k =
      if isValue (lookupF src k) then lookupF src k else lookupF d k := by
  induction src generalizing d with
  | nil => simp [assignFields, lookupF, isValue]
  | cons p rest ih =>
      obtain ⟨a, b⟩ := p
      have hnd : NodupKeys rest := by
        unfold NodupKeys keysOf at hsrc ⊢
        exact (List.nodup_cons.mp hsrc).2
      have hp1 : a ∉ keysOf rest := by
        unfold NodupKeys keysOf at hsrc
        exact (List.nodup_cons.mp hsrc).1
      show lookupF (assignFields (if isValue b then setFieldL d a b else d) rest) k = _
      rw [ih hnd]
      by_cases hk : a = k
      · subst hk
        have hrest : lookupF rest a = .undef := lookupF_of_not_mem hp1
        rw [hrest]
        simp only [lookupF, eq_self_iff_true, ite_true]
        have hiu : isValue JsVal.undef = false := rfl
        rw [hiu]
        simp only [Bool.false_eq_true, if_false]
        by_cases hv : isValue b = true
        · rw [if_pos hv, if_pos hv, lookupF_setFieldL_self]
        · rw [if_neg hv, if_neg hv]
      · simp only [lookupF, if_neg hk]
        by_cases hv : isValue b = true
        · rw [if_pos hv]
          by_cases hrv : isValue (lookupF rest k) = true
          · rw [if_pos hrv, if_pos hrv]
          · rw [if_neg hrv, if_neg hrv,
              lookupF_setFieldL_ne d b (fun hh => hk hh.symm)]
        · rw [if_neg hv]

theorem keysIn_setFieldL {fs : List (String × JsVal)} {allow : List String}
    {k : String} (v : JsVal) (h : KeysIn fs allow) (hk : k ∈ allow) :
    KeysIn (setFieldL fs k v) allow := by
  unfold setFieldL
  by_cases hany : fs.any (fun p => p.1 == k) = true
  · rw [if_pos hany]
    intro p hp
    obtain ⟨q, hq, hqe⟩ := List.mem_map.mp hp
    by_cases hqk : q.1 = k
    · rw [← hqe]; simp [hqk, hk]
    · rw [← hqe]; simp only [if_neg hqk]; exact h q hq
  · rw [if_neg hany]
    intro p hp
    rcases List.mem_append.mp hp with hp | hp
    · exact h p hp
    · rw [List.mem_singleton.mp hp]
      exact hk

theorem keysIn_assignFields {d src : List (String × JsVal)}
    {allow : List String} (hd : KeysIn d allow)
    (hsrc : ∀ p ∈ src, p.1 ∈ allow) : KeysIn (assignFields d src) allow := by
  induction src generalizing d with
  | nil => exact hd
  | cons p rest ih =>
      show KeysIn (assignFields (if isValue p.2 then setFieldL d p.1 p.2 else d) rest) allow
      have hp := hsrc p (List.mem_cons_self p rest)
      have hrest := fun q hq => hsrc q (List.mem_cons_of_mem p hq)
      by_cases hv : isValue p.2 = true
      · rw [if_pos hv]; exact ih (keysIn_setFieldL p.2 hd hp) hrest
      · rw [if_neg hv]; exact ih hd hrest

theorem lookupF_of_keysIn {fs : List (String × JsVal)} {allow : List String}
    {k : String} (h : KeysIn fs allow) (hk : k ∉ allow) :
    lookupF fs k = .undef := by
  apply lookupF_of_not_mem
  intro hm
  obtain ⟨p, hp, hpe⟩ := List.mem_map.mp hm
  exact hk (hpe ▸ h p hp)

theorem lookupF_removeFieldL_ne {fs : List (String × JsVal)} {k k' : String}
    (h : k' ≠ k) : lookupF (removeFieldL fs k) k' = lookupF fs k' := by
  induction fs with
  | nil => rfl
  | cons p rest ih =>
      unfold removeFieldL at ih ⊢
      by_cases hp : p.1 = k
      · rw [List.filter_cons_of_neg (by simp [hp])]
        simp only [lookupF]
        rw [if_neg (fun hh => h (hp ▸ hh).symm), ih]
      · rw [List.filter_cons_of_pos (by simp [hp])]
        simp only [lookupF, ih]

theorem lookupF_removeFieldL_self (fs : List (String × JsVal)) (k : String) :
    lookupF (removeFieldL fs k) k = .undef := by
  apply lookupF_of_not_mem
  intro hm
  obtain ⟨p, hp, hpe⟩ := List.mem_map.mp hm
  have := List.of_mem_filter hp
  simp [hpe] at this

theorem insertPair_perm (x : String × JsVal) (l : List (String × JsVal)) :
    (insertPair x l).Perm (x :: l) := by
  induction l with
  | nil => exact List.Perm.refl _
  | cons y ys ih =>
      unfold insertPair
      by_cases h : strLe x.1 y.1 = true
      · rw [if_pos h]
      · rw [if_neg h]
        exact (ih.cons y).trans (List.Perm.swap x y ys)

theorem sortKeys_perm (fs : List (String × JsVal)) : (sortKeys fs).Perm fs := by
  induction fs with
  | nil => exact List.Perm.refl _
  | cons p rest ih =>
      show (insertPair p (sortKeys rest)).Perm (p :: rest)
      exact (insertPair_perm p (sortKeys rest)).trans (ih.cons p)

theorem lookupF_foldl_setFieldL_not_mem {l : List (String × JsVal)}
    {k : String} (h : k ∉ keysOf l) (d : List (String × JsVal)) :
    lookupF (l.foldl (fun d kv => setFieldL d kv.1 kv.2) d) k = lookupF d k := by
  induction l generalizing d with
  | nil => rfl
  | cons p rest ih =>
      simp only [keysOf, List.map_cons, List.mem_cons, not_or] at h
      rw [List.foldl_cons, ih h.2, lookupF_setFieldL_ne d p.2 h.1]

theorem lookupF_foldl_setFieldL_mem {l : List (String × JsVal)}
    {k : String} {v : JsVal} (hnd : NodupKeys l) (hmem : (k, v) ∈ l)
    (d : List (String × JsVal)) :
    lookupF (l.foldl (fun d kv => setFieldL d kv.1 kv.2) d) k = v := by
  induction l generalizing d with
  | nil => simp at hmem
  | cons p rest ih =>
      have hnd' : NodupKeys rest := (List.nodup_cons.mp hnd).2
      have hp1 : p.1 ∉ keysOf rest := (List.nodup_cons.mp hnd).1
      rcases List.mem_cons.mp hmem with hh | hh
      · rw [← hh] at hp1 ⊢
        rw [List.foldl_cons, lookupF_foldl_setFieldL_not_mem hp1,
          lookupF_setFieldL_self]
      · have hk : p.1 ≠ k := by
          intro he
          exact hp1 (he ▸ List.mem_map.mpr ⟨(k, v), hh, rfl⟩)
        rw [List.foldl_cons]
        exact ih hnd' hh _

theorem jres_bind_ok {α β : Type} (a : α) (f : α → JRes β) :
    (Except.ok a >>= f) = f a := rfl

theorem jres_bind_error {α β : Type} (e : ConvErr) (f : α → JRes β) :
    ((Except.error e : JRes α) >>= f) = .error e := rfl

theorem jres_pure {α : Type} (a : α) : (pure a : JRes α) = .ok a := rfl

theorem jsStrictEq_eq_of_isValue {a g : JsVal} (hg : isValue g = true)
    (h : jsStrictEq a g = true) : a = g := by
  cases a <;> cases g <;> simp_all [jsStrictEq, isValue]

/-! ## Claim C10 — the empty string behaves like an absent field -/

theorem assignFields_skip_empty (d : List (String × JsVal))
    (l2 : List (String × JsVal)) (k : String) :
    assignFields d ((k, .str "") :: l2) = assignFields d l2 := by
  unfold assignFields
  rw [List.foldl_cons]
  have : isValue (JsVal.str "") = false := rfl
  rw [this]
  simp

theorem assignFields_skip_undef (d : List (String × JsVal))
    (l2 : List (String × JsVal)) (k : String) :
    assignFields d ((k, .undef) :: l2) = assignFields d l2 := by
  unfold assignFields
  rw [List.foldl_cons]
  have : isValue JsVal.undef = false := rfl
  rw [this]
  simp

/-- Claim C10: every field-presence test of the converter treats the empty
string exactly like an absent field.  The presence tests are `isValue`,
truthiness (`||` and `if`), and the value filter of `extend`
(`assignFields`); all three are blind to the difference between `""` and
`undefined`, and consequently `buildInfo` produces the same document when
`info.title` is the empty string as when it is removed — the placeholder
title is used, and an empty `info.description` is omitted from the
output. -/
theorem emptyString_behaves_as_absent :
    (isValue (.str "") = false ∧ isValue .undef = false) ∧
    (jsTruthy (.str "") = false ∧ jsTruthy .undef = false) ∧
    (∀ (d l2 : List (String × JsVal)) (k : String),
      assignFields d ((k, .str "") :: l2) = assignFields d l2 ∧
      assignFields d ((k, .undef) :: l2) = assignFields d l2) ∧
    (∀ (fs o : List (String × JsVal)),
      lookupF fs "info" = .obj o →
      lookupF o "title" = .str "" →
      buildInfo (.obj fs) =
        buildInfo (.obj (setFieldL fs "info" (.obj (removeFieldL o "title")))) ∧
      getField (buildInfo (.obj fs)) "title" = .str "Title was not specified") ∧
    (∀ (fs o : List (String × JsVal)),
      lookupF fs "info" = .obj o →
      lookupF o "description" = .str "" →
      getField (buildInfo (.obj fs)) "description" = .undef) := by
  refine ⟨⟨rfl, rfl⟩, ⟨rfl, rfl⟩,
    fun d l2 k => ⟨assignFields_skip_empty d l2 k, assignFields_skip_undef d l2 k⟩,
    ?_, ?_⟩
  · intro fs o h1 h2
    have hver : lookupF (setFieldL fs "info" (.obj (removeFieldL o "title")))
        "apiVersion" = lookupF fs "apiVersion" :=
      lookupF_setFieldL_ne fs _ (by decide)
    have hinfo : lookupF (setFieldL fs "info" (.obj (removeFieldL o "title")))
        "info" = .obj (removeFieldL o "title") :=
      lookupF_setFieldL_self fs _ _
    constructor
    · simp only [buildInfo, getField_obj, h1, hinfo, hver]
      rw [show (!isValue (JsVal.obj o)) = false from rfl,
        show (!isValue (JsVal.obj (removeFieldL o "title"))) = false from rfl]
      simp only [Bool.false_eq_true, if_false]
      rw [lookupF_removeFieldL_self o "title",
        lookupF_removeFieldL_ne (show "contact" ≠ "title" by decide),
        lookupF_removeFieldL_ne (show "license" ≠ "title" by decide),
        lookupF_removeFieldL_ne (show "licenseUrl" ≠ "title" by decide),
        lookupF_removeFieldL_ne (show "description" ≠ "title" by decide),
        lookupF_removeFieldL_ne (show "termsOfServiceUrl" ≠ "title" by decide),
        h2]
      rfl
    · simp only [buildInfo, getField_obj, h1]
      rw [show (!isValue (JsVal.obj o)) = false from rfl]
      simp only [Bool.false_eq_true, if_false]
      rw [h2, getField_obj]
      rw [lookupF_assignFields (by simp [NodupKeys, keysOf])]
      simp [lookupF, isValue]
  · intro fs o h1 h2
    simp only [buildInfo, getField_obj, h1]
    rw [show (!isValue (JsVal.obj o)) = false from rfl]
    simp only [Bool.false_eq_true, if_false]
    rw [h2, getField_obj]
    rw [lookupF_assignFields (by simp [NodupKeys, keysOf])]
    simp [lookupF, isValue]

/-- Witness for C10 at a concrete input: an `info` with empty `title` and
`description` converts identically to one with those fields removed, the
title falls back to the placeholder, and the description is absent. -/
theorem emptyString_behaves_as_absent_witness :
    buildInfo (.obj [("apiVersion", .str "2"),
        ("info", .obj [("title", .str ""), ("description", .str "")])]) =
      buildInfo (.obj (setFieldL
        [("apiVersion", .str "2"),
         ("info", .obj [("title", .str ""), ("description", .str "")])]
        "info"
        (.obj (removeFieldL [("title", .str ""), ("description", .str "")] "title")))) ∧
    getField (buildInfo (.obj [("apiVersion", .str "2"),
        ("info", .obj [("title", .str ""), ("description", .str "")])]))
      "title" = .str "Title was not specified" ∧
    getField (buildInfo (.obj [("apiVersion", .str "2"),
        ("info", .obj [("title", .str ""), ("description", .str "")])]))
      "description" = .undef := by
  refine ⟨(emptyString_behaves_as_absent.2.2.2.1
      [("apiVersion", .str "2"),
       ("info", .obj [("title", .str ""), ("description", .str "")])]
      [("title", .str ""), ("description", .str "")] rfl rfl).1,
    (emptyString_behaves_as_absent.2.2.2.1
      [("apiVersion", .str "2"),
       ("info", .obj [("title", .str ""), ("description", .str "")])]
      [("title", .str ""), ("description", .str "")] rfl rfl).2,
    emptyString_behaves_as_absent.2.2.2.2
      [("apiVersion", .str "2"),
       ("info", .obj [("title", .str ""), ("description", .str "")])]
      [("title", .str ""), ("description", .str "")] rfl rfl⟩

/-! ## Claim C4 — conflicting base paths are a fatal error -/

theorem two_mem_split {α : Type} {l : List α} {a b : α}
    (ha : a ∈ l) (hb : b ∈ l) (hne : a ≠ b) :
    ∃ l1 l2 l3, l = l1 ++ (a :: (l2 ++ (b :: l3))) ∨
      l = l1 ++ (b :: (l2 ++ (a :: l3))) := by
  induction l with
  | nil => simp at ha
  | cons x rest ih =>
      rcases List.mem_cons.mp ha with hax | hax
      · have hbr : b ∈ rest := by
          rcases List.mem_cons.mp hb with hbx | hbx
          · exact absurd (hax.trans hbx.symm) hne
          · exact hbx
        obtain ⟨s, t, hst⟩ := List.append_of_mem hbr
        exact ⟨[], s, t, Or.inl (by rw [← hax, hst]; rfl)⟩
      · rcases List.mem_cons.mp hb with hbx | hbx
        · obtain ⟨s, t, hst⟩ := List.append_of_mem hax
          exact ⟨[], s, t, Or.inr (by rw [← hbx, hst]; rfl)⟩
        · obtain ⟨l1, l2, l3, hsplit⟩ := ih hax hbx
          rcases hsplit with h | h
          · exact ⟨x :: l1, l2, l3, Or.inl (by rw [h]; rfl)⟩
          · exact ⟨x :: l1, l2, l3, Or.inr (by rw [h]; rfl)⟩

theorem basePathStep_pure {pathC : List (String × JsVal)} {g api : JsVal}
    (h : (isValue g && !jsStrictEq (declBasePath pathC api) g) = false) :
    basePathStep pathC g api = .ok (declBasePath pathC api) := by
  unfold basePathStep
  rw [h]
  rfl

theorem basePathStep_error {pathC : List (String × JsVal)} {g api : JsVal}
    (h : (isValue g && !jsStrictEq (declBasePath pathC api) g) = true) :
    basePathStep pathC g api =
      .error (.convMsg "Resources can not override each other basePaths") := by
  unfold basePathStep
  rw [h]
  rfl

theorem basePathFold_error_of_established {pathC : List (String × JsVal)}
    (l : List (String × JsVal)) (g : JsVal) (hg : isValue g = true)
    (hconf : ∃ p ∈ l, jsStrictEq (declBasePath pathC p.2) g = false) :
    List.foldlM (fun s kv => basePathStep pathC s kv.2) g l =
      .error (.convMsg "Resources can not override each other basePaths") := by
  induction l generalizing g with
  | nil => simp at hconf
  | cons p rest ih =>
      rw [List.foldlM_cons]
      by_cases hc : jsStrictEq (declBasePath pathC p.2) g = true
      · rw [basePathStep_pure (by rw [hg, hc]; rfl), jres_bind_ok]
        have heq : declBasePath pathC p.2 = g := jsStrictEq_eq_of_isValue hg hc
        rw [heq]
        apply ih g hg
        obtain ⟨q, hq, hqe⟩ := hconf
        rcases List.mem_cons.mp hq with hqp | hqr
        · rw [hqp, heq] at hqe
          rw [show jsStrictEq g g = true from by
            cases g <;> simp_all [jsStrictEq, isValue]] at hqe
          exact absurd hqe (by simp)
        · exact ⟨q, hqr, hqe⟩
      · rw [basePathStep_error (by rw [hg, Bool.eq_false_iff.mpr hc]; rfl),
          jres_bind_error]

theorem basePathFold_error_of_confpair {pathC : List (String × JsVal)}
    (l1 l2 l3 : List (String × JsVal)) (va vb : String × JsVal) (g : JsVal)
    (hva : isValue (declBasePath pathC va.2) = true)
    (hconf : jsStrictEq (declBasePath pathC vb.2) (declBasePath pathC va.2) = false) :
    List.foldlM (fun s kv => basePathStep pathC s kv.2) g
        (l1 ++ (va :: (l2 ++ (vb :: l3)))) =
      .error (.convMsg "Resources can not override each other basePaths") := by
  induction l1 generalizing g with
  | nil =>
      show (basePathStep pathC g va.2 >>= fun s =>
        List.foldlM (fun s kv => basePathStep pathC s kv.2) s
          (l2 ++ (vb :: l3))) = _
      by_cases hstep : (isValue g && !jsStrictEq (declBasePath pathC va.2) g) = true
      · rw [basePathStep_error hstep, jres_bind_error]
      · rw [basePathStep_pure (Bool.eq_false_iff.mpr hstep), jres_bind_ok]
        exact basePathFold_error_of_established _ _ hva ⟨vb, by simp, hconf⟩
  | cons x l1' ih =>
      show (basePathStep pathC g x.2 >>= fun s =>
        List.foldlM (fun s kv => basePathStep pathC s kv.2) s
          (l1' ++ (va :: (l2 ++ (vb :: l3))))) = _
      by_cases hstep : (isValue g && !jsStrictEq (declBasePath pathC x.2) g) = true
      · rw [basePathStep_error hstep, jres_bind_error]
      · rw [basePathStep_pure (Bool.eq_false_iff.mpr hstep), jres_bind_ok]
        exact ih _

/-- Claim C4: if two API declarations passed to one conversion declare
different absolute (non-relative) base paths, the base-path aggregation
raises the conflicting-base-path `SwaggerConverterError` — `convert`
invokes `aggregatePathComponents` while assembling its result, so the
conversion throws and no output document is produced. -/
theorem aggregatePathComponents_conflict
    (rl : JsVal) (ds : List (String × JsVal)) (k1 k2 : String)
    (d1 d2 : JsVal) (b1 b2 : String)
    (hm1 : (k1, d1) ∈ ds) (hm2 : (k2, d2) ∈ ds) (hk : k1 ≠ k2)
    (hb1 : getField d1 "basePath" = .str b1)
    (hb2 : getField d2 "basePath" = .str b2)
    (hne : b1 ≠ b2) (hb1e : b1 ≠ "") (hb2e : b2 ≠ "")
    (hr1 : isRelativeBasePath (.str b1) = false)
    (hr2 : isRelativeBasePath (.str b2) = false) :
    aggregatePathComponents rl (.obj ds) =
      .error (.convMsg "Resources can not override each other basePaths") := by
  unfold aggregatePathComponents
  have hperm := (sortKeys_perm ds).symm
  have hm1' : (k1, d1) ∈ sortKeys ds := hperm.mem_iff.mp hm1
  have hm2' : (k2, d2) ∈ sortKeys ds := hperm.mem_iff.mp hm2
  have hpairne : (k1, d1) ≠ (k2, d2) := by
    intro h
    exact hk (congrArg Prod.fst h)
  set pathC := assignFields [] (buildPathComponents (getField rl "basePath"))
    with hpathC
  have hd1 : declBasePath pathC d1 = .str b1 := by
    unfold declBasePath
    rw [hb1, hr1]
    simp
  have hd2 : declBasePath pathC d2 = .str b2 := by
    unfold declBasePath
    rw [hb2, hr2]
    simp
  have hfold :
      List.foldlM (fun s kv => basePathStep pathC s kv.2) JsVal.undef
          (sortKeys ds) =
        .error (.convMsg "Resources can not override each other basePaths") := by
    obtain ⟨l1, l2, l3, hsplit⟩ := two_mem_split hm1' hm2' hpairne
    rcases hsplit with h | h
    · rw [h]
      apply basePathFold_error_of_confpair
      · show isValue (declBasePath pathC d1) = true
        rw [hd1]
        simp [isValue, hb1e]
      · show jsStrictEq (declBasePath pathC d2) (declBasePath pathC d1) = false
        rw [hd1, hd2]
        simp [jsStrictEq]
        exact fun hh => hne hh.symm
    · rw [h]
      apply basePathFold_error_of_confpair
      · show isValue (declBasePath pathC d2) = true
        rw [hd2]
        simp [isValue, hb2e]
      · show jsStrictEq (declBasePath pathC d1) (declBasePath pathC d2) = false
        rw [hd1, hd2]
        simp [jsStrictEq]
        exact hne
  show (List.foldlM (fun s kv => basePathStep pathC s kv.2) JsVal.undef
      (sortKeys ds) >>= fun g =>
        pure (JsVal.obj (assignFields pathC (buildPathComponents g)))) = _
  rw [hfold, jres_bind_error]

/-- Witness for C4: two declarations with base paths `http://a.com` and
`http://b.com` make the aggregation throw the conflicting-base-path
error. -/
theorem aggregatePathComponents_conflict_witness :
    aggregatePathComponents (.obj [])
        (.obj [("a", .obj [("basePath", .str "http://a.com")]),
               ("b", .obj [("basePath", .str "http://b.com")])]) =
      .error (.convMsg "Resources can not override each other basePaths") :=
  aggregatePathComponents_conflict (.obj [])
    [("a", .obj [("basePath", .str "http://a.com")]),
     ("b", .obj [("basePath", .str "http://b.com")])]
    "a" "b" (.obj [("basePath", .str "http://a.com")])
    (.obj [("basePath", .str "http://b.com")])
    "http://a.com" "http://b.com"
    (List.mem_cons_self _ _)
    (List.mem_cons_of_mem _ (List.mem_cons_self _ _))
    (by decide) rfl rfl (by decide) (by decide) (by decide) rfl rfl

/-! ## Claim C3 — the mixed-declaration error is order dependent -/

theorem resourceFold_error_after_embedded {decls : JsVal}
    (l : List JsVal) (res : List JsVal)
    (h : ∃ e ∈ l, isEmbeddedEntry e = false) :
    List.foldlM (resourceStep decls) (res, true) l =
      .error (.convMsg
        "Resource listing can not have both operations and API declarations.") := by
  induction l generalizing res with
  | nil => simp at h
  | cons x t ih =>
      rw [List.foldlM_cons]
      by_cases hx : isEmbeddedEntry x = true
      · rw [show resourceStep decls (res, true) x = .ok (res, true) from by
          unfold resourceStep; rw [hx]; rfl, jres_bind_ok]
        apply ih
        obtain ⟨e, he, hec⟩ := h
        rcases List.mem_cons.mp he with hex | het
        · rw [hex] at hec; rw [hec] at hx; exact absurd hx (by simp)
        · exact ⟨e, het, hec⟩
      · rw [show resourceStep decls (res, true) x = .error (.convMsg
            "Resource listing can not have both operations and API declarations.")
          from by
            unfold resourceStep
            rw [Bool.eq_false_iff.mpr hx]
            rfl, jres_bind_error]

theorem resourceFold_embedded_only {decls : JsVal}
    (embs : List JsVal) (res : List JsVal) (b : Bool)
    (h : ∀ e ∈ embs, isEmbeddedEntry e = true) :
    List.foldlM (resourceStep decls) (res, b) embs =
      .ok (res, if embs.isEmpty then b else true) := by
  induction embs generalizing b with
  | nil => rfl
  | cons x t ih =>
      rw [List.foldlM_cons]
      rw [show resourceStep decls (res, b) x = .ok (res, true) from by
        unfold resourceStep
        rw [h x (List.mem_cons_self x t)]
        rfl, jres_bind_ok]
      rw [ih true (fun e he => h e (List.mem_cons_of_mem x he))]
      simp

theorem resourceFold_mixed_error {decls : JsVal}
    (l1 : List JsVal) (emb : JsVal) (l2 : List JsVal)
    (st : List JsVal × Bool)
    (hemb : isEmbeddedEntry emb = true)
    (href : ∃ e ∈ l2, isEmbeddedEntry e = false)
    (hres : ∀ e ∈ l1, isEmbeddedEntry e = false → resolvesIn decls e = true) :
    List.foldlM (resourceStep decls) st (l1 ++ (emb :: l2)) =
      .error (.convMsg
        "Resource listing can not have both operations and API declarations.") := by
  induction l1 generalizing st with
  | nil =>
      show (resourceStep decls st emb >>= fun st' =>
        List.foldlM (resourceStep decls) st' l2) = _
      rw [show resourceStep decls st emb = .ok (st.1, true) from by
        unfold resourceStep; rw [hemb]; rfl, jres_bind_ok]
      exact resourceFold_error_after_embedded l2 st.1 href
  | cons x t ih =>
      show (resourceStep decls st x >>= fun st' =>
        List.foldlM (resourceStep decls) st' (t ++ (emb :: l2))) = _
      by_cases hx : isEmbeddedEntry x = true
      · rw [show resourceStep decls st x = .ok (st.1, true) from by
          unfold resourceStep; rw [hx]; rfl, jres_bind_ok]
        apply resourceFold_error_after_embedded
        obtain ⟨e, he, hec⟩ := href
        exact ⟨e, by simp [he], hec⟩
      · have hxf := Bool.eq_false_iff.mpr hx
        have hrx := hres x (List.mem_cons_self x t) hxf
        by_cases hflag : st.2 = true
        · rw [show resourceStep decls st x = .error (.convMsg
              "Resource listing can not have both operations and API declarations.")
            from by
              unfold resourceStep
              rw [hxf, hflag]
              rfl, jres_bind_error]
        · rw [show resourceStep decls st x =
              .ok (st.1 ++ [getField decls (jsToString (getField x "path"))], st.2)
            from by
              unfold resourceStep
              rw [hxf, Bool.eq_false_iff.mpr hflag, hrx]
              rfl, jres_bind_ok]
          exact ih _ (fun e he hc => hres e (List.mem_cons_of_mem x he) hc)

theorem resourceFold_refs_then_embs {decls : JsVal}
    (refs embs : List JsVal) (res : List JsVal)
    (hrefs : ∀ e ∈ refs, isEmbeddedEntry e = false ∧ resolvesIn decls e = true)
    (hembs : ∀ e ∈ embs, isEmbeddedEntry e = true) :
    List.foldlM (resourceStep decls) (res, false) (refs ++ embs) =
      .ok (res ++ resolveRefs decls refs, if embs.isEmpty then false else true) := by
  induction refs generalizing res with
  | nil =>
      rw [List.nil_append]
      rw [resourceFold_embedded_only embs res false hembs]
      simp [resolveRefs]
  | cons r t ih =>
      show (resourceStep decls (res, false) r >>= fun st' =>
        List.foldlM (resourceStep decls) st' (t ++ embs)) = _
      have hr := hrefs r (List.mem_cons_self r t)
      rw [show resourceStep decls (res, false) r =
          .ok (res ++ [getField decls (jsToString (getField r "path"))], false)
        from by
          unfold resourceStep
          rw [hr.1, hr.2]
          rfl, jres_bind_ok]
      rw [ih _ (fun e he => hrefs e (List.mem_cons_of_mem r he))]
      simp [resolveRefs]

/-- Counterexample for claim C3: a root listing whose `apis` mixes a
referenced entry (`{path: "/a"}`) with an embedded entry
(`{path: "/b", operations: [...]}`), in that order, does NOT raise the
mixed-declaration-style error — `getResources` succeeds and treats the
whole listing as embedded, discarding the resolved declaration. -/
theorem getResources_mixed_order_counterexample :
    isEmbeddedEntry (.obj [("path", .str "/a")]) = false ∧
    isEmbeddedEntry (.obj [("path", .str "/b"),
      ("operations", .arr [.obj []])]) = true ∧
    getResources
        (.obj [("apis", .arr
          [.obj [("path", .str "/a")],
           .obj [("path", .str "/b"), ("operations", .arr [.obj []])]])])
        (.obj [("/a", .obj [("k", .bool true)])]) =
      .ok [.obj [("apis", .arr
        [.obj [("path", .str "/a")],
         .obj [("path", .str "/b"), ("operations", .arr [.obj []])]])]] :=
  ⟨rfl, rfl, rfl⟩

/-- Claim C3 (amended): the mixed-declaration-style fatal error is raised
exactly when a referenced entry is reached after an embedded entry has
been seen; if every embedded entry comes after all referenced entries, no
error is raised — the referenced declarations are resolved and then
discarded, and the resource listing is treated as embedded. -/
theorem getResources_mixed_order_dependent :
    (∀ (rl decls : JsVal) (l1 : List JsVal) (emb : JsVal) (l2 : List JsVal),
      getField rl "apis" = .arr (l1 ++ (emb :: l2)) →
      isEmbeddedEntry emb = true →
      (∃ e ∈ l2, isEmbeddedEntry e = false) →
      (∀ e ∈ l1, isEmbeddedEntry e = false → resolvesIn decls e = true) →
      getResources rl decls =
        .error (.convMsg
          "Resource listing can not have both operations and API declarations.")) ∧
    (∀ (rl decls : JsVal) (refs embs : List JsVal),
      getField rl "apis" = .arr (refs ++ embs) →
      (∀ e ∈ refs, isEmbeddedEntry e = false ∧ resolvesIn decls e = true) →
      (∀ e ∈ embs, isEmbeddedEntry e = true) →
      getResources rl decls =
        .ok (if embs.isEmpty then resolveRefs decls refs else [rl])) := by
  constructor
  · intro rl decls l1 emb l2 hapis hemb href hres
    unfold getResources
    rw [hapis]
    show (List.foldlM (resourceStep decls) ([], false) (l1 ++ (emb :: l2)) >>=
      fun st => pure (if st.2 then [rl] else st.1)) = _
    rw [resourceFold_mixed_error l1 emb l2 ([], false) hemb href hres,
      jres_bind_error]
  · intro rl decls refs embs hapis hrefs hembs
    unfold getResources
    rw [hapis]
    show (List.foldlM (resourceStep decls) ([], false) (refs ++ embs) >>=
      fun st => pure (if st.2 then [rl] else st.1)) = _
    rw [resourceFold_refs_then_embs refs embs [] hrefs hembs, jres_bind_ok]
    by_cases he : embs.isEmpty = true
    · rw [if_pos he]
      simp only [he, Bool.false_eq_true, if_false, if_pos]
      rfl
    · rw [if_neg he]
      simp only [Bool.eq_false_iff.mpr he]
      rfl

/-- Witness for C3 (amended): embedded-then-referenced raises the mixed
error; referenced-then-embedded succeeds with the listing as the single
(embedded) resource. -/
theorem getResources_mixed_order_dependent_witness :
    getResources
        (.obj [("apis", .arr
          [.obj [("path", .str "/b"), ("operations", .arr [.obj []])],
           .obj [("path", .str "/a")]])])
        (.obj [("/a", .obj [("k", .bool true)])]) =
      .error (.convMsg
        "Resource listing can not have both operations and API declarations.") ∧
    getResources
        (.obj [("apis", .arr
          [.obj [("path", .str "/a")],
           .obj [("path", .str "/b"), ("operations", .arr [.obj []])]])])
        (.obj [("/a", .obj [("k", .bool true)])]) =
      .ok [.obj [("apis", .arr
        [.obj [("path", .str "/a")],
         .obj [("path", .str "/b"), ("operations", .arr [.obj []])]])]] := by
  constructor
  · exact getResources_mixed_order_dependent.1
      (.obj [("apis", .arr
        [.obj [("path", .str "/b"), ("operations", .arr [.obj []])],
         .obj [("path", .str "/a")]])])
      (.obj [("/a", .obj [("k", .bool true)])])
      [] (.obj [("path", .str "/b"), ("operations", .arr [.obj []])])
      [.obj [("path", .str "/a")]]
      rfl rfl ⟨.obj [("path", .str "/a")], by simp, rfl⟩
      (fun e he => by simp at he)
  · exact getResources_mixed_order_dependent.2
      (.obj [("apis", .arr
        [.obj [("path", .str "/a")],
         .obj [("path", .str "/b"), ("operations", .arr [.obj []])]])])
      (.obj [("/a", .obj [("k", .bool true)])])
      [.obj [("path", .str "/a")]]
      [.obj [("path", .str "/b"), ("operations", .arr [.obj []])]]
      rfl
      (fun e he => by
        rw [List.mem_singleton.mp he]
        exact ⟨rfl, rfl⟩)
      (fun e he => by
        rw [List.mem_singleton.mp he]
        rfl)

theorem keysIn_mono {fs : List (String × JsVal)} {allow allow' : List String}
    (hsub : ∀ k ∈ allow, k ∈ allow') (h : KeysIn fs allow) :
    KeysIn fs allow' :=
  fun p hp => hsub p.1 (h p hp)

/-- Shape of every `typeMap` entry: an object with keys among
`type`/`format`/`uniqueItems`, duplicate-free, and without `items`. -/
theorem typeMapLookup_inv {s : String} {v : JsVal}
    (h : typeMapLookup s = some v) :
    ∃ fs, v = .obj fs ∧ KeysIn fs ["type", "format", "uniqueItems"] ∧
      NodupKeys fs ∧ getField v "items" = .undef := by
  unfold typeMapLookup at h
  split at h <;>
    first
      | exact Option.noConfusion h
      | (cases h;
          exact ⟨_, rfl, by unfold KeysIn; decide,
            by unfold NodupKeys keysOf; decide, rfl⟩)

/-- Shape of the tolerant fallback. -/
theorem typeNameFallback_inv (t : String) (ar : Bool) :
    ∃ fs, typeNameFallback t ar = .obj fs ∧ KeysIn fs (btpKeysA ar) ∧
      NodupKeys fs ∧ getField (typeNameFallback t ar) "items" = .undef := by
  unfold typeNameFallback
  by_cases h : ar = true
  · rw [if_pos h]
    refine ⟨_, rfl, ?_, by simp [NodupKeys, keysOf], rfl⟩
    intro p hp
    rw [List.mem_singleton.mp hp, h]
    show ("$ref" : String) ∈ btpKeysA true
    decide
  · rw [if_neg h]
    refine ⟨_, rfl, ?_, by simp [NodupKeys, keysOf], rfl⟩
    intro p hp
    rw [List.mem_singleton.mp hp]
    unfold btpKeysA
    simp

/-- Keys of `[]` trivially lie in any allow-list. -/
theorem keysIn_nil (allow : List String) : KeysIn [] allow :=
  fun p hp => absurd hp (List.not_mem_nil p)

/-- The base data-type keys are in every `btpKeysA`. -/
theorem mem_btpKeysA (ar : Bool) :
    ∀ k ∈ (["type", "format", "uniqueItems", "items",
      "additionalProperties"] : List String), k ∈ btpKeysA ar := by
  cases ar <;> decide

/-- All possible data-type keys are in every `bdtKeysA`. -/
theorem mem_bdtKeysA (ar : Bool) :
    ∀ k ∈ (["type", "format", "uniqueItems", "items", "additionalProperties",
      "minimum", "maximum", "default", "enum"] : List String),
      k ∈ bdtKeysA ar := by
  cases ar <;> decide

theorem btpKeysA_sub_bdtKeysA (ar : Bool) :
    ∀ k ∈ btpKeysA ar, k ∈ bdtKeysA ar := by
  cases ar <;> decide

theorem bdtKeysA_sub_modelKeys : ∀ k ∈ bdtKeysA true, k ∈ modelKeys := by
  decide

theorem mem_modelKeys :
    ∀ k ∈ (["description", "required", "properties", "discriminator",
      "example", "items"] : List String), k ∈ modelKeys := by
  decide

theorem objInv_nil (allow : List String) : ObjInv (.obj []) allow :=
  ⟨[], rfl, keysIn_nil allow, List.nodup_nil, keysIn_nil allow⟩

/-- A singleton object whose key is not `items` satisfies the invariant as
soon as its key is allowed. -/
theorem objInv_single {k : String} {allow : List String} (v : JsVal)
    (hk : k ∈ allow) (hne : ¬(k = "items")) : ObjInv (.obj [(k, v)]) allow := by
  refine ⟨[(k, v)], rfl, ?_, by simp [NodupKeys, keysOf], ?_⟩
  · intro p hp
    rw [List.mem_singleton.mp hp]
    exact hk
  · have hitems : getField (.obj [(k, v)]) "items" = .undef := by
      show lookupF [(k, v)] "items" = .undef
      simp [lookupF, hne]
    rw [hitems]
    exact keysIn_nil _

theorem objInv_fallback (t : String) (ar : Bool) :
    ObjInv (typeNameFallback t ar) (btpKeysA ar) := by
  obtain ⟨fs, he, hk, hn, hi⟩ := typeNameFallback_inv t ar
  exact ⟨fs, he, hk, hn, by rw [hi]; exact keysIn_nil _⟩

/-- Inversion of a successful `Except` bind. -/
theorem jres_bind_eq_ok {α β : Type} {x : JRes α} {f : α → JRes β} {b : β}
    (h : (x >>= f) = .ok b) : ∃ a, x = .ok a ∧ f a = .ok b := by
  cases x with
  | ok a => exact ⟨a, rfl, h⟩
  | error e => exact Except.noConfusion h

/-- The string case of `buildTypeProperties`, with the local `let`
bindings of the source inlined (definitional unfolding). -/
theorem buildTypeProperties_str (ct : List String) (fuel : Nat) (s : String)
    (allowRef : Bool) :
    buildTypeProperties ct (fuel + 1) (.str s) allowRef =
      if !jsTruthy (.str s) then .ok (.obj [])
      else if allowRef && ct.contains (strTrim s) then
        .ok (.obj [("$ref", .str ("#/definitions/" ++ strTrim s))])
      else
        match typeMapLookup (strToLower (strTrim s)) with
        | some v => .ok v
        | none =>
            match bracketSplit (strTrim s) with
            | some (coll, items) =>
                if strToLower coll = "map" then
                  if strToLower (jsSliceTo items (jsIndexOfChar items ',')) =
                      "string" then do
                    let ap ← buildTypeProperties ct fuel
                      (.str (jsSliceFrom items (jsIndexOfChar items ',' + 1)))
                      allowRef
                    .ok (.obj [("additionalProperties", ap)])
                  else .ok (typeNameFallback (strTrim s) allowRef)
                else
                  match typeMapLookup (strToLower coll) with
                  | some tv => do
                      let it ← buildTypeProperties ct fuel (.str items) allowRef
                      .ok (setFieldOf tv "items" it)
                  | none => .ok (typeNameFallback (strTrim s) allowRef)
            | none => .ok (typeNameFallback (strTrim s) allowRef) := rfl

/-- The final object assembled by `buildDataType` satisfies the
inventory, given the inventory for the translated type properties and for
the translated items. -/
theorem bdt_finish_inv {allowRef : Bool} {fsR : List (String × JsVal)}
    (hkR : KeysIn fsR (btpKeysA allowRef)) (hnR : NodupKeys fsR)
    (hiR : KeysIn (objFields (lookupF fsR "items")) (btpKeysA allowRef))
    {oldItems : JsVal}
    (hItems : isValue oldItems = true →
      ∃ fsI, oldItems = .obj fsI ∧ KeysIn fsI (bdtKeysA allowRef))
    (fm uniq mini maxi dv en : JsVal) :
    ObjInv (.obj
      (if isStr (lookupF (assignFields fsR
          [("format", fm), ("items", oldItems), ("uniqueItems", uniq),
           ("minimum", mini), ("maximum", maxi), ("default", dv),
           ("enum", en)]) "type") "array" &&
        !isValue (lookupF (assignFields fsR
          [("format", fm), ("items", oldItems), ("uniqueItems", uniq),
           ("minimum", mini), ("maximum", maxi), ("default", dv),
           ("enum", en)]) "items")
       then setFieldL (assignFields fsR
          [("format", fm), ("items", oldItems), ("uniqueItems", uniq),
           ("minimum", mini), ("maximum", maxi), ("default", dv),
           ("enum", en)]) "items" (.obj [])
       else assignFields fsR
          [("format", fm), ("items", oldItems), ("uniqueItems", uniq),
           ("minimum", mini), ("maximum", maxi), ("default", dv),
           ("enum", en)])) (bdtKeysA allowRef) := by
  have hsrcKeys : ∀ p ∈ [("format", fm), ("items", oldItems),
      ("uniqueItems", uniq), ("minimum", mini), ("maximum", maxi),
      ("default", dv), ("enum", en)], p.1 ∈ bdtKeysA allowRef := by
    intro p hp
    simp only [List.mem_cons, List.not_mem_nil, or_false] at hp
    rcases hp with rfl | rfl | rfl | rfl | rfl | rfl | rfl
    · exact mem_bdtKeysA allowRef "format" (by decide)
    · exact mem_bdtKeysA allowRef "items" (by decide)
    · exact mem_bdtKeysA allowRef "uniqueItems" (by decide)
    · exact mem_bdtKeysA allowRef "minimum" (by decide)
    · exact mem_bdtKeysA allowRef "maximum" (by decide)
    · exact mem_bdtKeysA allowRef "default" (by decide)
    · exact mem_bdtKeysA allowRef "enum" (by decide)
  have hndSrc : NodupKeys [("format", fm), ("items", oldItems),
      ("uniqueItems", uniq), ("minimum", mini), ("maximum", maxi),
      ("default", dv), ("enum", en)] := by
    unfold NodupKeys
    show (["format", "items", "uniqueItems", "minimum", "maximum",
      "default", "enum"] : List String).Nodup
    decide
  have hk1 : KeysIn (assignFields fsR
      [("format", fm), ("items", oldItems), ("uniqueItems", uniq),
       ("minimum", mini), ("maximum", maxi), ("default", dv),
       ("enum", en)]) (bdtKeysA allowRef) :=
    keysIn_assignFields
      (keysIn_mono (btpKeysA_sub_bdtKeysA allowRef) hkR) hsrcKeys
  have hn1 : NodupKeys (assignFields fsR
      [("format", fm), ("items", oldItems), ("uniqueItems", uniq),
       ("minimum", mini), ("maximum", maxi), ("default", dv),
       ("enum", en)]) :=
    nodupKeys_assignFields _ hnR
  by_cases hfin : (isStr (lookupF (assignFields fsR
      [("format", fm), ("items", oldItems), ("uniqueItems", uniq),
       ("minimum", mini), ("maximum", maxi), ("default", dv),
       ("enum", en)]) "type") "array" &&
      !isValue (lookupF (assignFields fsR
      [("format", fm), ("items", oldItems), ("uniqueItems", uniq),
       ("minimum", mini), ("maximum", maxi), ("default", dv),
       ("enum", en)]) "items")) = true
  · rw [if_pos hfin]
    refine ⟨_, rfl,
      keysIn_setFieldL _ hk1 (mem_bdtKeysA allowRef "items" (by decide)),
      nodupKeys_setFieldL _ _ hn1, ?_⟩
    show KeysIn (objFields (lookupF (setFieldL _ "items" (.obj []))
      "items")) _
    rw [lookupF_setFieldL_self]
    exact keysIn_nil _
  · rw [if_neg hfin]
    refine ⟨_, rfl, hk1, hn1, ?_⟩
    show KeysIn (objFields (lookupF (assignFields fsR
      [("format", fm), ("items", oldItems), ("uniqueItems", uniq),
       ("minimum", mini), ("maximum", maxi), ("default", dv),
       ("enum", en)]) "items")) _
    rw [lookupF_assignFields hndSrc]
    have hsl : lookupF [("format", fm), ("items", oldItems),
        ("uniqueItems", uniq), ("minimum", mini), ("maximum", maxi),
        ("default", dv), ("enum", en)] "items" = oldItems := by
      simp [lookupF]
    rw [hsl]
    by_cases hiv : isValue oldItems = true
    · rw [if_pos hiv]
      obtain ⟨fsI, heI, hkI⟩ := hItems hiv
      subst heI
      exact hkI
    · rw [if_neg hiv]
      exact keysIn_mono (btpKeysA_sub_bdtKeysA allowRef) hiR

/-- The object branch of `buildDataType`, factored over the two
constructors (`arr`, `obj`) that reach it. -/
theorem bdt_body_inv {ct : List String} {fuel : Nat} {old v : JsVal}
    {allowRef : Bool}
    (ihT : ∀ oldType allowRef v,
      buildTypeProperties ct fuel oldType allowRef = .ok v →
      ObjInv v (btpKeysA allowRef))
    (ihD : ∀ old allowRef v,
      buildDataType ct fuel old allowRef = .ok v →
      ObjInv v (bdtKeysA allowRef))
    (h : (do
      let oldTypeName := jsOr (getField old "type")
        (jsOr (getField old "dataType")
          (jsOr (getField old "responseClass") (getField old "$ref")))
      let result ← buildTypeProperties ct fuel oldTypeName allowRef
      let oldItems0 := getField old "items"
      let oldItems ←
        if isValue oldItems0 then
          let oi : JsVal := match oldItems0 with
            | .str s => .obj [("type", .str s)]
            | v => v
          buildDataType ct fuel oi allowRef
        else pure oldItems0
      let d0 := jsOr (getField old "default") (getField old "defaultValue")
      let defaultValue ←
        if isStr (getField result "type") "string" then pure d0
        else fixNonStringValue d0 true
      let uniq ← fixNonStringValue (getField old "uniqueItems") false
      let mini ← fixNonStringValue (getField old "minimum") false
      let maxi ← fixNonStringValue (getField old "maximum") false
      let fs := assignFields (objFields result)
        [("format", getField old "format"),
         ("items", oldItems),
         ("uniqueItems", uniq),
         ("minimum", mini),
         ("maximum", maxi),
         ("default", defaultValue),
         ("enum", getField old "enum")]
      let fs :=
        if isStr (lookupF fs "type") "array" && !isValue (lookupF fs "items")
        then setFieldL fs "items" (.obj [])
        else fs
      (.ok (.obj fs) : JRes JsVal)) = .ok v) :
    ObjInv v (bdtKeysA allowRef) := by
  obtain ⟨result, hres, h⟩ := jres_bind_eq_ok h
  obtain ⟨fsR, heR, hkR, hnR, hiR⟩ := ihT _ _ _ hres
  subst heR
  simp only [] at h
  by_cases hio : isValue (getField old "items") = true
  · rw [if_pos hio] at h
    obtain ⟨oldItems, hoi, h⟩ := jres_bind_eq_ok h
    have hItems : isValue oldItems = true →
        ∃ fsI, oldItems = .obj fsI ∧ KeysIn fsI (bdtKeysA allowRef) := by
      intro _
      obtain ⟨fsI, heI, hkI, _, _⟩ := ihD _ _ _ hoi
      exact ⟨fsI, heI, hkI⟩
    by_cases hds : isStr (getField (JsVal.obj fsR) "type") "string" = true
    · rw [if_pos hds] at h
      obtain ⟨dv, hdv, h⟩ := jres_bind_eq_ok h
      obtain ⟨uniq, hu, h⟩ := jres_bind_eq_ok h
      obtain ⟨mini, hmi, h⟩ := jres_bind_eq_ok h
      obtain ⟨maxi, hma, h⟩ := jres_bind_eq_ok h
      cases h
      exact bdt_finish_inv hkR hnR hiR hItems _ _ _ _ _ _
    · rw [if_neg hds] at h
      obtain ⟨dv, hdv, h⟩ := jres_bind_eq_ok h
      obtain ⟨uniq, hu, h⟩ := jres_bind_eq_ok h
      obtain ⟨mini, hmi, h⟩ := jres_bind_eq_ok h
      obtain ⟨maxi, hma, h⟩ := jres_bind_eq_ok h
      cases h
      exact bdt_finish_inv hkR hnR hiR hItems _ _ _ _ _ _
  · rw [if_neg hio] at h
    obtain ⟨oldItems, hoi, h⟩ := jres_bind_eq_ok h
    cases hoi
    have hItems : isValue (getField old "items") = true →
        ∃ fsI, getField old "items" = .obj fsI ∧
          KeysIn fsI (bdtKeysA allowRef) :=
      fun hiv => absurd hiv hio
    by_cases hds : isStr (getField (JsVal.obj fsR) "type") "string" = true
    · rw [if_pos hds] at h
      obtain ⟨dv, hdv, h⟩ := jres_bind_eq_ok h
      obtain ⟨uniq, hu, h⟩ := jres_bind_eq_ok h
      obtain ⟨mini, hmi, h⟩ := jres_bind_eq_ok h
      obtain ⟨maxi, hma, h⟩ := jres_bind_eq_ok h
      cases h
      exact bdt_finish_inv hkR hnR hiR hItems _ _ _ _ _ _
    · rw [if_neg hds] at h
      obtain ⟨dv, hdv, h⟩ := jres_bind_eq_ok h
      obtain ⟨uniq, hu, h⟩ := jres_bind_eq_ok h
      obtain ⟨mini, hmi, h⟩ := jres_bind_eq_ok h
      obtain ⟨maxi, hma, h⟩ := jres_bind_eq_ok h
      cases h
      exact bdt_finish_inv hkR hnR hiR hItems _ _ _ _ _ _

/-- The final object assembled by `buildModel` stays in the model key
inventory. -/
theorem model_assign_inv {fsB : List (String × JsVal)}
    (hkB : KeysIn fsB (bdtKeysA true)) (hnB : NodupKeys fsB)
    (d r pr di ex it : JsVal) :
    ∃ fs, JsVal.obj (assignFields fsB
      [("description", d), ("required", r), ("properties", pr),
       ("discriminator", di), ("example", ex), ("items", it)]) =
        .obj fs ∧ KeysIn fs modelKeys ∧ NodupKeys fs := by
  refine ⟨_, rfl, ?_, nodupKeys_assignFields _ hnB⟩
  refine keysIn_assignFields (keysIn_mono bdtKeysA_sub_modelKeys hkB) ?_
  intro p hp
  simp only [List.mem_cons, List.not_mem_nil, or_false] at hp
  rcases hp with rfl | rfl | rfl | rfl | rfl | rfl
  · exact mem_modelKeys "description" (by decide)
  · exact mem_modelKeys "required" (by decide)
  · exact mem_modelKeys "properties" (by decide)
  · exact mem_modelKeys "discriminator" (by decide)
  · exact mem_modelKeys "example" (by decide)
  · exact mem_modelKeys "items" (by decide)

/-- The shape inventory of the mutual data-type translators, by induction
on the fuel: successful results are duplicate-free objects whose keys come
from the respective key inventory, with the `items` sub-object again
inside the inventory. -/
theorem buildInventory (ct : List String) : ∀ fuel : Nat,
    (∀ oldType allowRef v,
      buildTypeProperties ct fuel oldType allowRef = .ok v →
      ObjInv v (btpKeysA allowRef)) ∧
    (∀ old allowRef v,
      buildDataType ct fuel old allowRef = .ok v →
      ObjInv v (bdtKeysA allowRef)) ∧
    (∀ old v, buildModel ct fuel old = .ok v →
      ∃ fs, v = .obj fs ∧ KeysIn fs modelKeys ∧ NodupKeys fs) := by
  intro fuel
  induction fuel with
  | zero =>
      refine ⟨?_, ?_, ?_⟩
      · intro oldType allowRef v h
        unfold buildTypeProperties at h
        exact Except.noConfusion h
      · intro old allowRef v h
        unfold buildDataType at h
        exact Except.noConfusion h
      · intro old v h
        unfold buildModel at h
        exact Except.noConfusion h
  | succ fuel ih =>
      obtain ⟨ihT, ihD, ihM⟩ := ih
      refine ⟨?_, ?_, ?_⟩
      · -- buildTypeProperties
        intro oldType allowRef v h
        cases oldType with
        | str s =>
            rw [buildTypeProperties_str] at h
            by_cases h1 : (!jsTruthy (JsVal.str s)) = true
            · rw [if_pos h1] at h
              cases h
              exact objInv_nil _
            · rw [if_neg h1] at h
              by_cases h2 : (allowRef && ct.contains (strTrim s)) = true
              · rw [if_pos h2] at h
                cases h
                have har : allowRef = true := by
                  cases allowRef
                  · simp at h2
                  · rfl
                subst har
                exact objInv_single _ (by decide) (by decide)
              · rw [if_neg h2] at h
                split at h
                · -- typeMap hit
                  rename_i tv heq
                  cases h
                  obtain ⟨fs, he, hk, hn, hi⟩ := typeMapLookup_inv heq
                  subst he
                  refine ⟨fs, rfl, ?_, hn, ?_⟩
                  · exact keysIn_mono (fun k hk2 =>
                      mem_btpKeysA allowRef k
                        ((by decide : ∀ x ∈ (["type", "format",
                          "uniqueItems"] : List String),
                          x ∈ (["type", "format", "uniqueItems", "items",
                            "additionalProperties"] : List String)) k hk2)) hk
                  · rw [hi]
                    exact keysIn_nil _
                · -- typeMap miss
                  split at h
                  · -- bracket syntax
                    rename_i pr coll items heq2
                    by_cases h3 : strToLower coll = "map"
                    · rw [if_pos h3] at h
                      by_cases h4 : strToLower (jsSliceTo items
                          (jsIndexOfChar items ',')) = "string"
                      · rw [if_pos h4] at h
                        obtain ⟨ap, hap, hv⟩ := jres_bind_eq_ok h
                        cases hv
                        exact objInv_single ap
                          (mem_btpKeysA allowRef "additionalProperties"
                            (by decide)) (by decide)
                      · rw [if_neg h4] at h
                        cases h
                        exact objInv_fallback _ _
                    · rw [if_neg h3] at h
                      split at h
                      · -- collection typeMap hit
                        rename_i tv heq3
                        obtain ⟨it, hit, hv⟩ := jres_bind_eq_ok h
                        cases hv
                        obtain ⟨fs0, he0, hk0, hn0, _⟩ := typeMapLookup_inv heq3
                        obtain ⟨fs1, he1, hk1, _, _⟩ := ihT _ _ _ hit
                        subst he0
                        subst he1
                        refine ⟨setFieldL fs0 "items" (.obj fs1), rfl, ?_, ?_, ?_⟩
                        · exact keysIn_setFieldL _
                            (keysIn_mono (fun k hk2 =>
                              mem_btpKeysA allowRef k
                                ((by decide : ∀ x ∈ (["type", "format",
                                  "uniqueItems"] : List String),
                                  x ∈ (["type", "format", "uniqueItems",
                                    "items", "additionalProperties"] :
                                    List String)) k hk2)) hk0)
                            (mem_btpKeysA allowRef "items" (by decide))
                        · exact nodupKeys_setFieldL _ _ hn0
                        · show KeysIn (objFields (lookupF
                            (setFieldL fs0 "items" (.obj fs1)) "items")) _
                          rw [lookupF_setFieldL_self]
                          exact hk1
                      · -- collection typeMap miss
                        cases h
                        exact objInv_fallback _ _
                  · -- no bracket syntax
                    cases h
                    exact objInv_fallback _ _
        | undef =>
            unfold buildTypeProperties at h
            cases h
            exact objInv_nil _
        | null =>
            unfold buildTypeProperties at h
            cases h
            exact objInv_nil _
        | bool b =>
            unfold buildTypeProperties at h
            by_cases h1 : (!jsTruthy (JsVal.bool b)) = true
            · rw [if_pos h1] at h
              cases h
              exact objInv_nil _
            · rw [if_neg h1] at h
              exact Except.noConfusion h
        | num m e =>
            unfold buildTypeProperties at h
            by_cases h1 : (!jsTruthy (JsVal.num m e)) = true
            · rw [if_pos h1] at h
              cases h
              exact objInv_nil _
            · rw [if_neg h1] at h
              exact Except.noConfusion h
        | arr xs =>
            unfold buildTypeProperties at h
            exact Except.noConfusion h
        | obj fs =>
            unfold buildTypeProperties at h
            exact Except.noConfusion h
      · -- buildDataType
        intro old allowRef v h
        unfold buildDataType at h
        by_cases h1 : (!jsTruthy old) = true
        · rw [if_pos h1] at h
          cases h
          exact objInv_nil _
        · rw [if_neg h1] at h
          cases old with
          | str s => exact Except.noConfusion h
          | num m e => exact Except.noConfusion h
          | bool b => exact Except.noConfusion h
          | undef => exact absurd rfl h1
          | null => exact absurd rfl h1
          | arr xs => exact bdt_body_inv ihT ihD h
          | obj fs => exact bdt_body_inv ihT ihD h
      · -- buildModel
        intro old v h
        unfold buildModel at h
        obtain ⟨st, hst, h⟩ := jres_bind_eq_ok h
        simp only [] at h
        by_cases hio : isValue (getField old "items") = true
        · rw [if_pos hio] at h
          obtain ⟨items, hitems, h⟩ := jres_bind_eq_ok h
          obtain ⟨base, hbase, h⟩ := jres_bind_eq_ok h
          cases h
          obtain ⟨fsB, heB, hkB, hnB, _⟩ := ihD _ _ _ hbase
          subst heB
          exact model_assign_inv hkB hnB _ _ _ _ _ _
        · rw [if_neg hio] at h
          obtain ⟨items, hitems, h⟩ := jres_bind_eq_ok h
          obtain ⟨base, hbase, h⟩ := jres_bind_eq_ok h
          cases h
          obtain ⟨fsB, heB, hkB, hnB, _⟩ := ihD _ _ _ hbase
          subst heB
          exact model_assign_inv hkB hnB _ _ _ _ _ _

/-- A value that `===`-compares equal to a string literal is that string. -/
theorem isStr_eq {v : JsVal} {s : String} (h : isStr v s = true) :
    v = .str s := by
  cases v <;> simp [isStr] at h
  rw [h]

/-- `extend` leaves keys absent from the source untouched. -/
theorem lookupF_assignFields_not_mem {src : List (String × JsVal)}
    {k : String} (h : k ∉ keysOf src) (d : List (String × JsVal)) :
    lookupF (assignFields d src) k = lookupF d k := by
  induction src generalizing d with
  | nil => rfl
  | cons p rest ih =>
      have hk : k ∉ keysOf rest := fun hm => h (List.mem_cons_of_mem _ hm)
      have hne : k ≠ p.1 := fun he => h (he ▸ List.mem_cons_self _ _)
      show lookupF (assignFields
        (if isValue p.2 then setFieldL d p.1 p.2 else d) rest) k = _
      rw [ih hk]
      by_cases hv : isValue p.2 = true
      · rw [if_pos hv, lookupF_setFieldL_ne d p.2 hne]
      · rw [if_neg hv]

theorem not_mem_keysOf_of_keysIn {fs : List (String × JsVal)}
    {allow : List String} {k : String} (h : KeysIn fs allow)
    (hk : k ∉ allow) : k ∉ keysOf fs := by
  intro hm
  obtain ⟨p, hp, hpe⟩ := List.mem_map.mp hm
  exact hk (hpe ▸ h p hp)

/-- `copyXFields` leaves non-vendor-extension keys unchanged. -/
theorem lookupF_copyXFields_not_x {params p1 : List (String × JsVal)}
    {old : JsVal} {k : String} (hk : isXDashKey k = false)
    (h : copyXFields params old = .ok p1) : lookupF p1 k = lookupF params k := by
  unfold copyXFields at h
  cases old with
  | obj fs =>
      cases h
      apply lookupF_foldl_setFieldL_not_mem
      intro hm
      obtain ⟨q, hq, hqe⟩ := List.mem_map.mp hm
      have hq2 : q ∈ fs.filter (fun p => isXDashKey p.1) :=
        (sortKeys_perm _).mem_iff.mp hq
      have hxq := (List.mem_filter.mp hq2).2
      rw [hqe, hk] at hxq
      exact Bool.false_ne_true hxq
  | arr xs =>
      cases xs with
      | nil => cases h; rfl
      | cons a as => exact Except.noConfusion h
  | undef => cases h; rfl
  | null => cases h; rfl
  | bool b => exact Except.noConfusion h
  | num m e => exact Except.noConfusion h
  | str s =>
      have h2 : (if isValue (JsVal.str s) = true then
          (.error (.convMsg "Expected array or object") :
            JRes (List (String × JsVal)))
        else .ok params) = .ok p1 := h
      by_cases hs : isValue (JsVal.str s) = true
      · rw [if_pos hs] at h2
        exact Except.noConfusion h2
      · rw [if_neg hs] at h2
        cases h2
        rfl

/-- `copyXFields` copies each vendor-extension field of a duplicate-free
parameter object verbatim (last writer wins does not arise: keys are
unique). -/
theorem lookupF_copyXFields_x {params p1 fs : List (String × JsVal)}
    {k : String} {v : JsVal} (hnd : NodupKeys fs) (hmem : (k, v) ∈ fs)
    (hx : isXDashKey k = true)
    (h : copyXFields params (.obj fs) = .ok p1) : lookupF p1 k = v := by
  unfold copyXFields at h
  cases h
  apply lookupF_foldl_setFieldL_mem
  · unfold NodupKeys
    have hperm : (keysOf (sortKeys (fs.filter (fun p => isXDashKey p.1)))).Perm
        (keysOf (fs.filter (fun p => isXDashKey p.1))) :=
      (sortKeys_perm _).map Prod.fst
    apply hperm.nodup_iff.mpr
    exact ((List.filter_sublist _).map Prod.fst).nodup hnd
  · exact (sortKeys_perm _).mem_iff.mpr
      (List.mem_filter.mpr ⟨hmem, hx⟩)

/-- Reading any key other than `schema`/`name` through the body tail. -/
theorem lookupF_bodyTail_ne {p2 : List (String × JsVal)} {schema : JsVal}
    {k : String} (h1 : k ≠ "schema") (h2 : k ≠ "name") :
    lookupF (bodyTail p2 schema) k = lookupF p2 k := by
  unfold bodyTail
  by_cases hn : (!isValue (lookupF (setFieldL p2 "schema" schema) "name"))
      = true
  · rw [if_pos hn, lookupF_setFieldL_ne _ _ h2, lookupF_setFieldL_ne _ _ h1]
  · rw [if_neg hn, lookupF_setFieldL_ne _ _ h1]

/-- The `in` field of the base parameter object is the source
`paramType` (when present). -/
theorem lookupF_baseParam_in (old req : JsVal) :
    lookupF (baseParam old req) "in" =
      if isValue (getField old "paramType") then getField old "paramType"
      else .undef := by
  unfold baseParam
  rw [lookupF_assignFields (by
    unfold NodupKeys
    show (["in", "description", "name", "required"] : List String).Nodup
    decide)]
  have hsl : lookupF [("in", getField old "paramType"),
      ("description", getField old "description"),
      ("name", getField old "name"), ("required", req)] "in" =
      getField old "paramType" := by
    simp [lookupF]
  rw [hsl]
  rfl

/-- Successful `buildParameter` runs decompose into the translated base
object followed by the body or the non-body tail. -/
theorem buildParameter_ok_shape {ctx : ConvCtx} {fuel : Nat} {old p : JsVal}
    (h : buildParameter ctx (fuel + 1) old = .ok p) :
    ∃ (req : JsVal) (p1 : List (String × JsVal)),
      fixNonStringValue (getField old "required") false = .ok req ∧
      copyXFields (baseParam old req) old = .ok p1 ∧
      ((isStr (getField old "paramType") "body" = true ∧
        ∃ schema, buildDataType ctx.customTypes fuel old true = .ok schema ∧
          p = .obj (bodyTail (formRename p1) schema)) ∨
       (isStr (getField old "paramType") "body" = false ∧
        ∃ schema am,
          buildDataType ctx.customTypes fuel old false = .ok schema ∧
          fixNonStringValue (getField old "allowMultiple") false = .ok am ∧
          p = .obj (assignFields (formRename p1)
            (objFields (nonBodyTail ctx (formRename p1) schema am))))) := by
  unfold buildParameter at h
  obtain ⟨req, hreq, h⟩ := jres_bind_eq_ok h
  obtain ⟨p1, hp1, h⟩ := jres_bind_eq_ok h
  refine ⟨req, p1, hreq, hp1, ?_⟩
  by_cases hbody : isStr (getField old "paramType") "body" = true
  · rw [if_pos hbody] at h
    obtain ⟨schema, hsch, h⟩ := jres_bind_eq_ok h
    cases h
    exact Or.inl ⟨hbody, schema, hsch, rfl⟩
  · rw [if_neg hbody] at h
    obtain ⟨schema, hsch, h⟩ := jres_bind_eq_ok h
    obtain ⟨am, ham, h⟩ := jres_bind_eq_ok h
    cases h
    exact Or.inr ⟨Bool.eq_false_iff.mpr hbody, schema, am, hsch, ham, rfl⟩

theorem mem_paramSchemaKeys_of_bdt {k : String} (h : k ∈ bdtKeysA false) :
    k ∈ paramSchemaKeys := List.mem_append_left _ h

/-- Reading a field of any value through its (possibly empty) field
list. -/
theorem getField_eq_lookupF (v : JsVal) (k : String) :
    getField v k = lookupF (objFields v) k := by
  cases v <;> rfl

/-- `pathRequired` only touches the `required` key. -/
theorem lookupF_pathRequired_ne {p2 : List (String × JsVal)} {s3 : JsVal}
    {k : String} (h1 : k ≠ "required") :
    lookupF (objFields (pathRequired p2 s3)) k = lookupF (objFields s3) k := by
  unfold pathRequired
  by_cases hp : isStr (lookupF p2 "in") "path" = true
  · rw [if_pos hp]
    show lookupF (setFieldL (objFields s3) "required" (.bool true)) k = _
    rw [lookupF_setFieldL_ne _ _ h1]
  · rw [if_neg hp]

/-- `applyCollectionFormat` only touches the `collectionFormat` key. -/
theorem lookupF_applyCF_ne {ctx : ConvCtx} {p2 : List (String × JsVal)}
    {s4 : JsVal} {k : String} (h2 : k ≠ "collectionFormat") :
    lookupF (objFields (applyCollectionFormat ctx p2 s4)) k =
      lookupF (objFields s4) k := by
  unfold applyCollectionFormat
  by_cases hc : (isValue ctx.collectionFormat &&
      isStr (getField s4 "type") "array") = true
  · rw [if_pos hc]
    by_cases hd : (!jsStrictEq ctx.collectionFormat (.str "multi") ||
        !(isStr (lookupF p2 "in") "path" ||
          isStr (lookupF p2 "in") "formData")) = true
    · rw [if_pos hd]
      show lookupF (setFieldL (objFields s4) "collectionFormat"
        ctx.collectionFormat) k = _
      rw [lookupF_setFieldL_ne _ _ h2]
    · rw [if_neg hd]
  · rw [if_neg hc]

/-- `defaultParamType` of an object is an object. -/
theorem defaultParamType_obj {fsS : List (String × JsVal)} :
    ∃ fs2, defaultParamType (.obj fsS) = .obj fs2 := by
  unfold defaultParamType defaultParamType1
  by_cases h0 : (!isValue (getField (JsVal.obj fsS) "type")) = true
  · rw [if_pos h0]
    by_cases h2 : (isStr (getField (setFieldOf (JsVal.obj fsS) "type"
          (.str "string")) "type") "array" &&
        !isValue (getField (getField (setFieldOf (JsVal.obj fsS) "type"
          (.str "string")) "items") "type")) = true
    · rw [if_pos h2]
      exact ⟨_, rfl⟩
    · rw [if_neg h2]
      exact ⟨_, rfl⟩
  · rw [if_neg h0]
    by_cases h2 : (isStr (getField (JsVal.obj fsS) "type") "array" &&
        !isValue (getField (getField (JsVal.obj fsS) "items") "type")) = true
    · rw [if_pos h2]
      exact ⟨_, rfl⟩
    · rw [if_neg h2]
      exact ⟨_, rfl⟩

/-- Shape of `defaultParamType`: keys and duplicate-freedom carry over. -/
theorem defaultParamType_inv {schema : JsVal} {allow : List String}
    (hmt : "type" ∈ allow) (hmi : "items" ∈ allow)
    (hk : KeysIn (objFields schema) allow)
    (hn : NodupKeys (objFields schema))
    (hit : KeysIn (objFields (getField schema "items")) allow) :
    KeysIn (objFields (defaultParamType schema)) allow ∧
    NodupKeys (objFields (defaultParamType schema)) ∧
    KeysIn (objFields (lookupF (objFields (defaultParamType schema))
      "items")) allow := by
  have h1 : KeysIn (objFields (defaultParamType1 schema)) allow ∧
      NodupKeys (objFields (defaultParamType1 schema)) ∧
      lookupF (objFields (defaultParamType1 schema)) "items" =
        getField schema "items" := by
    unfold defaultParamType1
    by_cases h0 : (!isValue (getField schema "type")) = true
    · rw [if_pos h0]
      refine ⟨keysIn_setFieldL _ hk hmt, nodupKeys_setFieldL _ _ hn, ?_⟩
      show lookupF (setFieldL (objFields schema) "type" (.str "string"))
        "items" = _
      rw [lookupF_setFieldL_ne _ _ (by decide), ← getField_eq_lookupF]
    · rw [if_neg h0]
      exact ⟨hk, hn, (getField_eq_lookupF schema "items").symm⟩
  unfold defaultParamType
  by_cases h2 : (isStr (getField (defaultParamType1 schema) "type") "array" &&
      !isValue (getField (getField (defaultParamType1 schema) "items")
        "type")) = true
  · rw [if_pos h2]
    refine ⟨keysIn_setFieldL _ h1.1 hmi, nodupKeys_setFieldL _ _ h1.2.1, ?_⟩
    show KeysIn (objFields (lookupF (setFieldL
      (objFields (defaultParamType1 schema)) "items"
      (setFieldOf (getField (defaultParamType1 schema) "items") "type"
        (.str "string"))) "items")) allow
    rw [lookupF_setFieldL_self]
    show KeysIn (setFieldL (objFields
      (getField (defaultParamType1 schema) "items")) "type"
      (.str "string")) allow
    apply keysIn_setFieldL _ _ hmt
    rw [getField_eq_lookupF (defaultParamType1 schema) "items", h1.2.2]
    exact hit
  · rw [if_neg h2]
    exact ⟨h1.1, h1.2.1, h1.2.2 ▸ hit⟩

/-- Shape of the full non-body schema pipeline: keys stay inside
`paramSchemaKeys`, keys are duplicate-free, a path parameter comes out
`required: true`, and the nested `items` object again stays inside
`paramSchemaKeys`. -/
theorem nonBodyTail_inv (ctx : ConvCtx) (p2 : List (String × JsVal))
    {schema : JsVal} (hs : ObjInv schema (bdtKeysA false)) (am : JsVal) :
    KeysIn (objFields (nonBodyTail ctx p2 schema am)) paramSchemaKeys ∧
    NodupKeys (objFields (nonBodyTail ctx p2 schema am)) ∧
    (isStr (lookupF p2 "in") "path" = true →
      lookupF (objFields (nonBodyTail ctx p2 schema am)) "required" =
        .bool true) ∧
    KeysIn (objFields (lookupF (objFields (nonBodyTail ctx p2 schema am))
      "items")) paramSchemaKeys := by
  obtain ⟨fs, he, hkf, hnf, hif⟩ := hs
  have hd : KeysIn (objFields (defaultParamType schema)) paramSchemaKeys ∧
      NodupKeys (objFields (defaultParamType schema)) ∧
      KeysIn (objFields (lookupF (objFields (defaultParamType schema))
        "items")) paramSchemaKeys := by
    apply defaultParamType_inv
      (mem_paramSchemaKeys_of_bdt (mem_bdtKeysA false "type" (by decide)))
      (mem_paramSchemaKeys_of_bdt (mem_bdtKeysA false "items" (by decide)))
    · rw [he]
      exact keysIn_mono (fun k hk => mem_paramSchemaKeys_of_bdt hk) hkf
    · rw [he]
      exact hnf
    · rw [he] at hif ⊢
      exact keysIn_mono (fun k hk => mem_paramSchemaKeys_of_bdt hk) hif
  have hw : KeysIn (objFields (amWrap (defaultParamType schema) am))
        paramSchemaKeys ∧
      NodupKeys (objFields (amWrap (defaultParamType schema) am)) ∧
      KeysIn (objFields (lookupF
        (objFields (amWrap (defaultParamType schema) am)) "items"))
        paramSchemaKeys := by
    unfold amWrap
    by_cases h3 : (isTrue am &&
        !isStr (getField (defaultParamType schema) "type") "array") = true
    · rw [if_pos h3]
      refine ⟨?_, ?_, ?_⟩
      · intro p hp
        simp only [objFields, List.mem_cons, List.not_mem_nil, or_false] at hp
        rcases hp with rfl | rfl
        · exact mem_paramSchemaKeys_of_bdt
            (mem_bdtKeysA false "type" (by decide))
        · exact mem_paramSchemaKeys_of_bdt
            (mem_bdtKeysA false "items" (by decide))
      · unfold NodupKeys
        show (["type", "items"] : List String).Nodup
        decide
      · have hsl : lookupF (objFields (JsVal.obj
            [("type", .str "array"),
             ("items", defaultParamType schema)])) "items" =
            defaultParamType schema := by
          simp [objFields, lookupF]
        rw [hsl]
        exact hd.1
    · rw [if_neg h3]
      exact ⟨hd.1, hd.2.1, hd.2.2⟩
  have hp4 : KeysIn (objFields (pathRequired p2
        (amWrap (defaultParamType schema) am))) paramSchemaKeys ∧
      NodupKeys (objFields (pathRequired p2
        (amWrap (defaultParamType schema) am))) ∧
      (isStr (lookupF p2 "in") "path" = true →
        lookupF (objFields (pathRequired p2
          (amWrap (defaultParamType schema) am))) "required" =
          .bool true) ∧
      KeysIn (objFields (lookupF (objFields (pathRequired p2
        (amWrap (defaultParamType schema) am))) "items"))
        paramSchemaKeys := by
    refine ⟨?_, ?_, ?_, ?_⟩
    · unfold pathRequired
      by_cases h4 : isStr (lookupF p2 "in") "path" = true
      · rw [if_pos h4]
        exact keysIn_setFieldL _ hw.1 (by decide)
      · rw [if_neg h4]
        exact hw.1
    · unfold pathRequired
      by_cases h4 : isStr (lookupF p2 "in") "path" = true
      · rw [if_pos h4]
        exact nodupKeys_setFieldL _ _ hw.2.1
      · rw [if_neg h4]
        exact hw.2.1
    · intro h4
      unfold pathRequired
      rw [if_pos h4]
      show lookupF (setFieldL _ "required" (.bool true)) "required" = _
      rw [lookupF_setFieldL_self]
    · rw [lookupF_pathRequired_ne (by decide)]
      exact hw.2.2
  refine ⟨?_, ?_, ?_, ?_⟩
  · show KeysIn (objFields (applyCollectionFormat ctx p2 (pathRequired p2
      (amWrap (defaultParamType schema) am)))) paramSchemaKeys
    unfold applyCollectionFormat
    by_cases h5 : (isValue ctx.collectionFormat &&
        isStr (getField (pathRequired p2
          (amWrap (defaultParamType schema) am)) "type") "array") = true
    · rw [if_pos h5]
      by_cases h6 : (!jsStrictEq ctx.collectionFormat (.str "multi") ||
          !(isStr (lookupF p2 "in") "path" ||
            isStr (lookupF p2 "in") "formData")) = true
      · rw [if_pos h6]
        exact keysIn_setFieldL _ hp4.1 (by decide)
      · rw [if_neg h6]
        exact hp4.1
    · rw [if_neg h5]
      exact hp4.1
  · show NodupKeys (objFields (applyCollectionFormat ctx p2 (pathRequired p2
      (amWrap (defaultParamType schema) am))))
    unfold applyCollectionFormat
    by_cases h5 : (isValue ctx.collectionFormat &&
        isStr (getField (pathRequired p2
          (amWrap (defaultParamType schema) am)) "type") "array") = true
    · rw [if_pos h5]
      by_cases h6 : (!jsStrictEq ctx.collectionFormat (.str "multi") ||
          !(isStr (lookupF p2 "in") "path" ||
            isStr (lookupF p2 "in") "formData")) = true
      · rw [if_pos h6]
        exact nodupKeys_setFieldL _ _ hp4.2.1
      · rw [if_neg h6]
        exact hp4.2.1
    · rw [if_neg h5]
      exact hp4.2.1
  · intro hc
    show lookupF (objFields (applyCollectionFormat ctx p2 (pathRequired p2
      (amWrap (defaultParamType schema) am)))) "required" = _
    rw [lookupF_applyCF_ne (by decide)]
    exact hp4.2.2.1 hc
  · show KeysIn (objFields (lookupF (objFields (applyCollectionFormat ctx p2
      (pathRequired p2 (amWrap (defaultParamType schema) am)))) "items"))
      paramSchemaKeys
    rw [lookupF_applyCF_ne (by decide)]
    exact hp4.2.2.2

/-- Claim C6: every output parameter whose `in` field is `path` carries
`required: true`, whatever the source parameter declared. -/
theorem pathParam_required {ctx : ConvCtx} {fuel : Nat} {old p : JsVal}
    (h : buildParameter ctx fuel old = .ok p)
    (hpath : isStr (getField p "in") "path" = true) :
    getField p "required" = .bool true := by
  cases fuel with
  | zero =>
      unfold buildParameter at h
      exact Except.noConfusion h
  | succ fuel =>
      obtain ⟨req, p1, hreq, hp1, hrest⟩ := buildParameter_ok_shape h
      rcases hrest with ⟨hbody, schema, hsch, hp⟩ |
        ⟨hbody, schema, am, hsch, ham, hp⟩
      · exfalso
        have hpt : getField old "paramType" = .str "body" := isStr_eq hbody
        have hin0 : lookupF (baseParam old req) "in" = .str "body" := by
          rw [lookupF_baseParam_in, hpt]
          rfl
        have hin1 : lookupF p1 "in" = .str "body" := by
          rw [lookupF_copyXFields_not_x (by decide) hp1, hin0]
        have hin2 : lookupF (formRename p1) "in" = .str "body" := by
          unfold formRename
          rw [hin1]
          rw [if_neg (by decide : ¬(isStr (JsVal.str "body") "form" = true))]
          exact hin1
        subst hp
        have hinP : getField (JsVal.obj (bodyTail (formRename p1) schema))
            "in" = .str "body" := by
          show lookupF (bodyTail (formRename p1) schema) "in" = _
          rw [lookupF_bodyTail_ne (by decide) (by decide), hin2]
        rw [hinP] at hpath
        exact absurd hpath (by decide)
      · subst hp
        have hinv := nonBodyTail_inv ctx (formRename p1)
          ((buildInventory ctx.customTypes fuel).2.1 _ _ _ hsch) am
        have hinP : getField (JsVal.obj (assignFields (formRename p1)
            (objFields (nonBodyTail ctx (formRename p1) schema am)))) "in" =
            lookupF (formRename p1) "in" := by
          show lookupF (assignFields _ _) "in" = _
          exact lookupF_assignFields_not_mem
            (not_mem_keysOf_of_keysIn hinv.1 (by decide)) _
        rw [hinP] at hpath
        have hreq5 := hinv.2.2.1 hpath
        show lookupF (assignFields (formRename p1)
          (objFields (nonBodyTail ctx (formRename p1) schema am)))
          "required" = .bool true
        rw [lookupF_assignFields hinv.2.1, hreq5]
        rfl

/-- Witness for C6: a path parameter whose source declares no `required`
at all still comes out with `required: true`. -/
theorem pathParam_required_witness :
    buildParameter ⟨[], [], .undef⟩ 9
      (.obj [("paramType", .str "path"), ("name", .str "id"),
        ("type", .str "string")]) =
      .ok (.obj [("in", .str "path"), ("name", .str "id"),
        ("type", .str "string"), ("required", .bool true)]) ∧
    getField (.obj [("in", .str "path"), ("name", .str "id"),
      ("type", .str "string"), ("required", .bool true)]) "required" =
      .bool true :=
  ⟨rfl, @pathParam_required ⟨[], [], .undef⟩ 9
    (.obj [("paramType", .str "path"), ("name", .str "id"),
      ("type", .str "string")])
    (.obj [("in", .str "path"), ("name", .str "id"),
      ("type", .str "string"), ("required", .bool true)]) rfl rfl⟩

/-- Counterexample for claim C2: a non-body parameter whose descriptor
names a known model type (`Pet`, declared among the custom types) converts
successfully to `{in: query, name: p, type: Pet}` — no fatal
unrepresentable-parameter error is raised anywhere, and no `$ref` is
produced. -/
theorem nonBody_complex_no_error :
    buildParameter ⟨["Pet"], [], .undef⟩ 9
      (.obj [("paramType", .str "query"), ("name", .str "p"),
        ("type", .str "Pet")]) =
      .ok (.obj [("in", .str "query"), ("name", .str "p"),
        ("type", .str "Pet")]) ∧
    getField (.obj [("in", .str "query"), ("name", .str "p"),
      ("type", .str "Pet")]) "$ref" = .undef ∧
    buildTypeProperties ["Pet"] 8 (.str "Pet") true =
      .ok (.obj [("$ref", .str "#/definitions/Pet")]) :=
  ⟨rfl, rfl, rfl⟩

/-- Claim C2 (amended): a non-body parameter is translated with reference
resolution disabled, and the result can never carry a `$ref` — neither at
the top level nor inside `items`; the legacy type name is emitted verbatim
(as `type`) instead of raising any error. -/
theorem nonBody_no_ref {ctx : ConvCtx} {fuel : Nat} {old p : JsVal}
    (h : buildParameter ctx fuel old = .ok p)
    (hnb : isStr (getField old "paramType") "body" = false) :
    getField p "$ref" = .undef ∧
    getField (getField p "items") "$ref" = .undef := by
  cases fuel with
  | zero =>
      unfold buildParameter at h
      exact Except.noConfusion h
  | succ fuel =>
      obtain ⟨req, p1, hreq, hp1, hrest⟩ := buildParameter_ok_shape h
      rcases hrest with ⟨hbody, _, _, _⟩ |
        ⟨hbody, schema, am, hsch, ham, hp⟩
      · rw [hnb] at hbody
        exact Bool.noConfusion hbody
      · subst hp
        have hinv := nonBodyTail_inv ctx (formRename p1)
          ((buildInventory ctx.customTypes fuel).2.1 _ _ _ hsch) am
        have hp2 : ∀ k2 : String, isXDashKey k2 = false →
            k2 ∉ (["in", "description", "name", "required"] : List String) →
            lookupF (formRename p1) k2 = .undef := by
          intro k2 hx2 hm2
          have hne_in : k2 ≠ "in" :=
            fun he => hm2 (he ▸ List.mem_cons_self _ _)
          have hb4 : lookupF (baseParam old req) k2 = .undef := by
            unfold baseParam
            rw [lookupF_assignFields_not_mem (by
              simp only [keysOf, List.map_cons, List.map_nil]
              exact hm2)]
            rfl
          have h1 : lookupF p1 k2 = .undef := by
            rw [lookupF_copyXFields_not_x hx2 hp1, hb4]
          unfold formRename
          by_cases hf : isStr (lookupF p1 "in") "form" = true
          · rw [if_pos hf, lookupF_setFieldL_ne _ _ hne_in, h1]
          · rw [if_neg hf]
            exact h1
        constructor
        · show lookupF (assignFields (formRename p1)
            (objFields (nonBodyTail ctx (formRename p1) schema am)))
            "$ref" = .undef
          rw [lookupF_assignFields hinv.2.1,
            lookupF_of_keysIn hinv.1 (by decide)]
          rw [show isValue JsVal.undef = false from rfl]
          simp only [Bool.false_eq_true, if_false]
          exact hp2 "$ref" (by decide) (by decide)
        · have hit : getField (JsVal.obj (assignFields (formRename p1)
              (objFields (nonBodyTail ctx (formRename p1) schema am))))
              "items" =
              (if isValue (lookupF (objFields (nonBodyTail ctx
                  (formRename p1) schema am)) "items") = true then
                lookupF (objFields (nonBodyTail ctx (formRename p1) schema
                  am)) "items"
              else lookupF (formRename p1) "items") := by
            show lookupF (assignFields _ _) "items" = _
            rw [lookupF_assignFields hinv.2.1]
          rw [hit]
          by_cases hv : isValue (lookupF (objFields (nonBodyTail ctx
              (formRename p1) schema am)) "items") = true
          · rw [if_pos hv, getField_eq_lookupF,
              lookupF_of_keysIn hinv.2.2.2 (by decide)]
          · rw [if_neg hv, hp2 "items" (by decide) (by decide)]
            rfl

/-- Witness for C2 (amended) at the `Pet` parameter: the output carries no
`$ref` at the top level or under `items`. -/
theorem nonBody_no_ref_witness :
    isStr (getField (.obj [("paramType", JsVal.str "query"),
      ("name", .str "p"), ("type", .str "Pet")]) "paramType") "body" =
      false ∧
    getField (.obj [("in", JsVal.str "query"), ("name", .str "p"),
      ("type", .str "Pet")]) "$ref" = .undef ∧
    getField (getField (.obj [("in", JsVal.str "query"), ("name", .str "p"),
      ("type", .str "Pet")]) "items") "$ref" = .undef :=
  ⟨rfl,
    @nonBody_no_ref ⟨["Pet"], [], .undef⟩ 9
      (.obj [("paramType", .str "query"), ("name", .str "p"),
        ("type", .str "Pet")])
      (.obj [("in", .str "query"), ("name", .str "p"),
        ("type", .str "Pet")]) rfl rfl⟩

/-- Forward evaluation of the non-body branch of `buildParameter` from
the results of its sub-translations. -/
theorem buildParameter_nonBody_eval {ctx : ConvCtx} {fuel : Nat}
    {old req : JsVal} {p1 : List (String × JsVal)} {schema am : JsVal}
    (hreq : fixNonStringValue (getField old "required") false = .ok req)
    (hp1 : copyXFields (baseParam old req) old = .ok p1)
    (hnb : isStr (getField old "paramType") "body" = false)
    (hsch : buildDataType ctx.customTypes fuel old false = .ok schema)
    (ham : fixNonStringValue (getField old "allowMultiple") false = .ok am) :
    buildParameter ctx (fuel + 1) old =
      .ok (.obj (assignFields (formRename p1)
        (objFields (nonBodyTail ctx (formRename p1) schema am)))) := by
  show (do
    let req0 ← fixNonStringValue (getField old "required") false
    let p10 ← copyXFields (assignFields []
      [("in", getField old "paramType"),
       ("description", getField old "description"),
       ("name", getField old "name"),
       ("required", req0)]) old
    let p2 :=
      if isStr (lookupF p10 "in") "form" then setFieldL p10 "in" (JsVal.str "formData")
      else p10
    if isStr (getField old "paramType") "body" then do
      let schema0 ← buildDataType ctx.customTypes fuel old true
      let p3 := setFieldL p2 "schema" schema0
      let p4 :=
        if !isValue (lookupF p3 "name") then setFieldL p3 "name" (JsVal.str "body")
        else p3
      pure (JsVal.obj p4)
    else do
      let schema0 ← buildDataType ctx.customTypes fuel old false
      let s2 := defaultParamType schema0
      let am0 ← fixNonStringValue (getField old "allowMultiple") false
      let s3 :=
        if isTrue am0 && !isStr (getField s2 "type") "array" then
          JsVal.obj [("type", .str "array"), ("items", s2)]
        else s2
      let s4 :=
        if isStr (lookupF p2 "in") "path" then setFieldOf s3 "required" (JsVal.bool true)
        else s3
      let cf := ctx.collectionFormat
      let s5 :=
        if isValue cf && isStr (getField s4 "type") "array" then
          if !jsStrictEq cf (JsVal.str "multi") ||
              !(isStr (lookupF p2 "in") "path" || isStr (lookupF p2 "in") "formData")
          then setFieldOf s4 "collectionFormat" cf
          else s4
        else s4
      pure (JsVal.obj (assignFields p2 (objFields s5)))) =
    .ok (.obj (assignFields (formRename p1)
      (objFields (nonBodyTail ctx (formRename p1) schema am))))
  rw [hreq, jres_bind_ok]
  unfold baseParam at hp1
  rw [hp1, jres_bind_ok]
  rw [hnb]
  simp only [Bool.false_eq_true, if_false]
  rw [hsch, jres_bind_ok]
  rw [ham, jres_bind_ok]
  rfl

/-- Dropping `allowMultiple` does not change the key filter of the
vendor-extension copy. -/
theorem filter_x_removeFieldL (fs : List (String × JsVal)) :
    (removeFieldL fs "allowMultiple").filter (fun p => isXDashKey p.1) =
      fs.filter (fun p => isXDashKey p.1) := by
  unfold removeFieldL
  rw [List.filter_filter]
  apply List.filter_congr
  intro a _
  by_cases hx : isXDashKey a.1 = true
  · have hne : (a.1 == "allowMultiple") = false := by
      rw [beq_eq_false_iff_ne]
      intro he
      rw [he] at hx
      exact absurd hx (by decide)
    rw [hx, hne]
    rfl
  · have hx2 : isXDashKey a.1 = false := Bool.eq_false_iff.mpr hx
    rw [hx2]
    simp

/-- Dropping `allowMultiple` does not change `copyXFields`. -/
theorem copyXFields_drop_allowMultiple (params : List (String × JsVal))
    (fs : List (String × JsVal)) :
    copyXFields params (.obj (removeFieldL fs "allowMultiple")) =
      copyXFields params (.obj fs) := by
  show Except.ok ((sortKeys ((removeFieldL fs "allowMultiple").filter
      (fun p => isXDashKey p.1))).foldl
        (fun d kv => setFieldL d kv.1 kv.2) params) =
    Except.ok ((sortKeys (fs.filter (fun p => isXDashKey p.1))).foldl
      (fun d kv => setFieldL d kv.1 kv.2) params)
  rw [filter_x_removeFieldL]

/-- The object case of `buildDataType`, with its local bindings written
out (definitional unfolding). -/
theorem buildDataType_obj (ct : List String) (fuel : Nat)
    (fs : List (String × JsVal)) (ar : Bool) :
    buildDataType ct (fuel + 1) (.obj fs) ar = (do
      let result ← buildTypeProperties ct fuel
        (jsOr (getField (JsVal.obj fs) "type")
          (jsOr (getField (JsVal.obj fs) "dataType")
            (jsOr (getField (JsVal.obj fs) "responseClass")
              (getField (JsVal.obj fs) "$ref")))) ar
      let oldItems ←
        if isValue (getField (JsVal.obj fs) "items") then
          buildDataType ct fuel
            (match getField (JsVal.obj fs) "items" with
              | JsVal.str s => JsVal.obj [("type", JsVal.str s)]
              | v => v) ar
        else pure (getField (JsVal.obj fs) "items")
      let defaultValue ←
        if isStr (getField result "type") "string" then
          pure (jsOr (getField (JsVal.obj fs) "default")
            (getField (JsVal.obj fs) "defaultValue"))
        else fixNonStringValue (jsOr (getField (JsVal.obj fs) "default")
          (getField (JsVal.obj fs) "defaultValue")) true
      let uniq ← fixNonStringValue (getField (JsVal.obj fs) "uniqueItems")
        false
      let mini ← fixNonStringValue (getField (JsVal.obj fs) "minimum") false
      let maxi ← fixNonStringValue (getField (JsVal.obj fs) "maximum") false
      let fs1 := assignFields (objFields result)
        [("format", getField (JsVal.obj fs) "format"),
         ("items", oldItems),
         ("uniqueItems", uniq),
         ("minimum", mini),
         ("maximum", maxi),
         ("default", defaultValue),
         ("enum", getField (JsVal.obj fs) "enum")]
      let fs2 :=
        if isStr (lookupF fs1 "type") "array" && !isValue (lookupF fs1 "items")
        then setFieldL fs1 "items" (JsVal.obj [])
        else fs1
      (Except.ok (JsVal.obj fs2) : JRes JsVal)) := rfl

/-- Dropping `allowMultiple` does not change `buildDataType` (the
translator never reads that key). -/
theorem buildDataType_drop_allowMultiple (ct : List String) (fuel : Nat)
    (fs : List (String × JsVal)) (ar : Bool) :
    buildDataType ct fuel (.obj (removeFieldL fs "allowMultiple")) ar =
      buildDataType ct fuel (.obj fs) ar := by
  cases fuel with
  | zero => rfl
  | succ fuel =>
      have hg : ∀ K : String, K ≠ "allowMultiple" →
          getField (JsVal.obj (removeFieldL fs "allowMultiple")) K =
          getField (JsVal.obj fs) K :=
        fun K hK => lookupF_removeFieldL_ne hK
      rw [buildDataType_obj, buildDataType_obj]
      rw [hg "type" (by decide), hg "dataType" (by decide),
        hg "responseClass" (by decide), hg "$ref" (by decide),
        hg "items" (by decide), hg "default" (by decide),
        hg "defaultValue" (by decide), hg "uniqueItems" (by decide),
        hg "minimum" (by decide), hg "maximum" (by decide),
        hg "format" (by decide), hg "enum" (by decide)]

/-- Claim C7: for a non-body parameter whose `allowMultiple` coerces to
`true`: when the resolved type is not `array`, the translated schema `S`
is replaced by `{type: array, items: S}`; when the resolved type is
already `array`, the flag is ignored — the output is exactly the output
for the same parameter with the `allowMultiple` field removed. -/
theorem allowMultiple_wrap {ctx : ConvCtx} {fuel : Nat}
    {fs : List (String × JsVal)} {p : JsVal}
    (h : buildParameter ctx (fuel + 1) (.obj fs) = .ok p)
    (hnb : isStr (getField (.obj fs) "paramType") "body" = false)
    {schema am : JsVal}
    (hsch : buildDataType ctx.customTypes fuel (.obj fs) false = .ok schema)
    (ham : fixNonStringValue (getField (.obj fs) "allowMultiple") false =
      .ok am)
    (htrue : isTrue am = true) :
    (isStr (getField (defaultParamType schema) "type") "array" = false →
      getField p "type" = .str "array" ∧
      getField p "items" = defaultParamType schema) ∧
    (isStr (getField (defaultParamType schema) "type") "array" = true →
      buildParameter ctx (fuel + 1)
        (.obj (removeFieldL fs "allowMultiple")) = .ok p) := by
  obtain ⟨req, p1, hreq, hp1, hrest⟩ := buildParameter_ok_shape h
  rcases hrest with ⟨hbody, _, _, _⟩ | ⟨hbody, schema2, am2, hsch2, ham2, hp⟩
  · rw [hnb] at hbody
    exact Bool.noConfusion hbody
  · rw [hsch] at hsch2
    injection hsch2 with he1
    subst he1
    rw [ham] at ham2
    injection ham2 with he2
    subst he2
    constructor
    · intro hnarr
      subst hp
      have hinv := nonBodyTail_inv ctx (formRename p1)
        ((buildInventory ctx.customTypes fuel).2.1 _ _ _ hsch) am
      have hWrap : amWrap (defaultParamType schema) am =
          .obj [("type", .str "array"),
            ("items", defaultParamType schema)] := by
        unfold amWrap
        rw [htrue, hnarr]
        rfl
      have hT : lookupF (objFields (nonBodyTail ctx (formRename p1) schema
          am)) "type" = .str "array" := by
        unfold nonBodyTail
        rw [lookupF_applyCF_ne (by decide),
          lookupF_pathRequired_ne (by decide), hWrap]
        simp [objFields, lookupF]
      have hI : lookupF (objFields (nonBodyTail ctx (formRename p1) schema
          am)) "items" = defaultParamType schema := by
        unfold nonBodyTail
        rw [lookupF_applyCF_ne (by decide),
          lookupF_pathRequired_ne (by decide), hWrap]
        simp [objFields, lookupF]
      constructor
      · show lookupF (assignFields (formRename p1)
          (objFields (nonBodyTail ctx (formRename p1) schema am))) "type" =
          .str "array"
        rw [lookupF_assignFields hinv.2.1, hT]
        rfl
      · show lookupF (assignFields (formRename p1)
          (objFields (nonBodyTail ctx (formRename p1) schema am))) "items" =
          defaultParamType schema
        rw [lookupF_assignFields hinv.2.1, hI]
        obtain ⟨fsS, heS, _, _, _⟩ :=
          (buildInventory ctx.customTypes fuel).2.1 _ _ _ hsch
        subst heS
        obtain ⟨fs2, he2⟩ := @defaultParamType_obj fsS
        rw [he2]
        rfl
    · intro harr
      subst hp
      have hamU : fixNonStringValue (getField
          (JsVal.obj (removeFieldL fs "allowMultiple")) "allowMultiple")
          false = .ok JsVal.undef := by
        rw [show getField (JsVal.obj (removeFieldL fs "allowMultiple"))
          "allowMultiple" = JsVal.undef from
          lookupF_removeFieldL_self fs "allowMultiple"]
        rfl
      have hreq2 : fixNonStringValue (getField
          (JsVal.obj (removeFieldL fs "allowMultiple")) "required") false =
          .ok req := by
        rw [show getField (JsVal.obj (removeFieldL fs "allowMultiple"))
          "required" = getField (JsVal.obj fs) "required" from
          lookupF_removeFieldL_ne (by decide)]
        exact hreq
      have hbase2 : baseParam (JsVal.obj (removeFieldL fs "allowMultiple"))
          req = baseParam (JsVal.obj fs) req := by
        unfold baseParam
        rw [show getField (JsVal.obj (removeFieldL fs "allowMultiple"))
            "paramType" = getField (JsVal.obj fs) "paramType" from
            lookupF_removeFieldL_ne (by decide),
          show getField (JsVal.obj (removeFieldL fs "allowMultiple"))
            "description" = getField (JsVal.obj fs) "description" from
            lookupF_removeFieldL_ne (by decide),
          show getField (JsVal.obj (removeFieldL fs "allowMultiple"))
            "name" = getField (JsVal.obj fs) "name" from
            lookupF_removeFieldL_ne (by decide)]
      have hp12 : copyXFields (baseParam
          (JsVal.obj (removeFieldL fs "allowMultiple")) req)
          (JsVal.obj (removeFieldL fs "allowMultiple")) = .ok p1 := by
        rw [hbase2, copyXFields_drop_allowMultiple]
        exact hp1
      have hnb2 : isStr (getField
          (JsVal.obj (removeFieldL fs "allowMultiple")) "paramType")
          "body" = false := by
        rw [show getField (JsVal.obj (removeFieldL fs "allowMultiple"))
          "paramType" = getField (JsVal.obj fs) "paramType" from
          lookupF_removeFieldL_ne (by decide)]
        exact hnb
      have hsch3 : buildDataType ctx.customTypes fuel
          (JsVal.obj (removeFieldL fs "allowMultiple")) false =
          .ok schema := by
        rw [buildDataType_drop_allowMultiple]
        exact hsch
      rw [buildParameter_nonBody_eval hreq2 hp12 hnb2 hsch3 hamU]
      have hW2 : amWrap (defaultParamType schema) am =
          defaultParamType schema := by
        unfold amWrap
        rw [harr]
        rw [if_neg (by simp)]
      unfold nonBodyTail
      rw [hW2]
      rfl

/-- Witness for C7: a string-typed query parameter with
`allowMultiple: "true"` comes out as an array of strings. -/
theorem allowMultiple_wrap_witness :
    buildParameter ⟨[], [], .undef⟩ 9
      (.obj [("paramType", JsVal.str "query"), ("name", .str "p"),
        ("type", .str "string"), ("allowMultiple", .str "true")]) =
      .ok (.obj [("in", .str "query"), ("name", .str "p"),
        ("type", .str "array"),
        ("items", .obj [("type", .str "string")])]) ∧
    getField (.obj [("in", JsVal.str "query"), ("name", .str "p"),
      ("type", .str "array"), ("items", .obj [("type", .str "string")])])
      "type" = .str "array" ∧
    getField (.obj [("in", JsVal.str "query"), ("name", .str "p"),
      ("type", .str "array"), ("items", .obj [("type", .str "string")])])
      "items" = .obj [("type", .str "string")] :=
  ⟨rfl,
    (@allowMultiple_wrap ⟨[], [], .undef⟩ 8
      [("paramType", JsVal.str "query"), ("name", .str "p"),
       ("type", .str "string"), ("allowMultiple", .str "true")]
      (.obj [("in", .str "query"), ("name", .str "p"),
        ("type", .str "array"),
        ("items", .obj [("type", .str "string")])])
      rfl rfl (.obj [("type", .str "string")]) (.bool true) rfl rfl
      rfl).1 rfl⟩

/-- Claim C8: the string coercion policy for boolean/number-like fields.
Case-insensitive `true`/`false` become booleans, the empty string becomes
absent, other strings are parsed as JSON literals, and a failing parse is
the fatal malformed-literal error unless silent fallback is requested —
which `buildDataType` requests exactly for the `default` value (its
`minimum`, read with `skipError = false`, aborts on the same input on
which its `defaultValue` is silently dropped). -/
theorem string_coercion_policy (s : String) (skipError : Bool) :
    (fixNonStringValue (.str "") skipError = .ok .undef) ∧
    (s ≠ "" → strToLower s = "true" →
      fixNonStringValue (.str s) skipError = .ok (.bool true)) ∧
    (s ≠ "" → strToLower s = "false" →
      fixNonStringValue (.str s) skipError = .ok (.bool false)) ∧
    (∀ v, s ≠ "" → strToLower s ≠ "true" → strToLower s ≠ "false" →
      jsonParse s = some v →
      fixNonStringValue (.str s) skipError = .ok v) ∧
    (s ≠ "" → strToLower s ≠ "true" → strToLower s ≠ "false" →
      jsonParse s = none →
      fixNonStringValue (.str s) false =
        .error (.convMsg "incorect property value") ∧
      fixNonStringValue (.str s) true = .ok .undef) ∧
    (buildDataType [] 9 (.obj [("type", .str "integer"),
        ("defaultValue", .str "nope")]) true =
      .ok (.obj [("type", .str "integer")])) ∧
    (buildDataType [] 9 (.obj [("type", .str "integer"),
        ("minimum", .str "nope")]) true =
      .error (.convMsg "incorect property value")) := by
  have heq : ∀ sk : Bool, fixNonStringValue (.str s) sk =
      (if s = "" then .ok .undef
       else if strToLower s = "true" then .ok (.bool true)
       else if strToLower s = "false" then .ok (.bool false)
       else match jsonParse s with
         | some v => .ok v
         | none =>
             if sk then .ok .undef
             else .error (.convMsg "incorect property value")) :=
    fun sk => rfl
  refine ⟨rfl, ?_, ?_, ?_, ?_, rfl, rfl⟩
  · intro hne ht
    rw [heq, if_neg hne, if_pos ht]
  · intro hne hf
    rw [heq, if_neg hne,
      if_neg (fun hh => (by decide : ("false" : String) ≠ "true")
        (hf.symm.trans hh)),
      if_pos hf]
  · intro v hne ht hf hp
    rw [heq, if_neg hne, if_neg ht, if_neg hf, hp]
  · intro hne ht hf hp
    constructor
    · rw [heq, if_neg hne, if_neg ht, if_neg hf, hp]
      rfl
    · rw [heq, if_neg hne, if_neg ht, if_neg hf, hp]
      rfl

/-- Witness for C8: `"TRUE"` coerces to `true`, `"5"` parses as the JSON
number `5`, and `"nope"` is fatal without silent fallback but silently
absent with it. -/
theorem string_coercion_policy_witness :
    fixNonStringValue (.str "TRUE") false = .ok (.bool true) ∧
    fixNonStringValue (.str "5") false = .ok (.num 5 0) ∧
    fixNonStringValue (.str "nope") false =
      .error (.convMsg "incorect property value") ∧
    fixNonStringValue (.str "nope") true = .ok .undef :=
  ⟨(string_coercion_policy "TRUE" false).2.1 (by decide) rfl,
   (string_coercion_policy "5" false).2.2.2.1 (.num 5 0) (by decide)
     (by decide) (by decide) rfl,
   ((string_coercion_policy "nope" false).2.2.2.2.1 (by decide) (by decide)
     (by decide) rfl).1,
   ((string_coercion_policy "nope" false).2.2.2.2.1 (by decide) (by decide)
     (by decide) rfl).2⟩

/-- The successor case of `buildResponses`, with local bindings written
out (definitional unfolding). -/
theorem buildResponses_succ (ctx : ConvCtx) (fuel : Nat) (old : JsVal) :
    buildResponses ctx (fuel + 1) old = (do
      let r1 ← jsForEachV (getField old "responseMessages")
        [("200", JsVal.obj
          [("description", JsVal.str "No response was specified")])]
        (fun rs oldResponse => do
          let sch ← buildTypeProperties ctx.customTypes fuel
            (getField oldResponse "responseModel") true
          pure (setFieldL rs (jsToString (getField oldResponse "code"))
            (JsVal.obj (assignFields []
              [("description",
                jsOr (getField oldResponse "message")
                  (JsVal.str "Description was not specified")),
               ("schema", undefinedIfEmpty sch)]))))
      let opSchema ← buildDataType ctx.customTypes fuel old true
      (Except.ok (JsVal.obj (setFieldL r1 "200"
        (JsVal.obj (assignFields (objFields (lookupF r1 "200"))
          [("schema", undefinedIfEmpty opSchema)])))) : JRes JsVal)) := rfl

/-- A descriptor without any of the descriptor fields translates to the
empty object. -/
theorem buildDataType_clean {ct : List String} {fuel : Nat}
    {ofs : List (String × JsVal)}
    (hclean : ∀ K ∈ descriptorKeys, getField (.obj ofs) K = .undef) :
    buildDataType ct (fuel + 2) (.obj ofs) true = .ok (.obj []) := by
  show buildDataType ct (fuel + 1 + 1) (.obj ofs) true = .ok (.obj [])
  rw [buildDataType_obj]
  rw [hclean "type" (by decide), hclean "dataType" (by decide),
    hclean "responseClass" (by decide), hclean "$ref" (by decide),
    hclean "items" (by decide), hclean "default" (by decide),
    hclean "defaultValue" (by decide), hclean "uniqueItems" (by decide),
    hclean "minimum" (by decide), hclean "maximum" (by decide),
    hclean "format" (by decide), hclean "enum" (by decide)]
  rfl

/-- Counterexample for claim C5: an operation with no `responseMessages`
and no response-type fields (no `type`/`dataType`/`responseClass`/`items`)
but with a stray `maximum: "5"` descriptor field does not yield the exact
default responses map — the synthetic `200` response also carries a
schema `{maximum: 5}`. -/
theorem default_response_counterexample :
    buildResponses ⟨[], [], .undef⟩ 9 (.obj [("maximum", .str "5")]) =
      .ok (.obj [("200", .obj
        [("description", .str "No response was specified"),
         ("schema", .obj [("maximum", .num 5 0)])])]) ∧
    isValue (getField (getField (.obj [("200", JsVal.obj
      [("description", JsVal.str "No response was specified"),
       ("schema", .obj [("maximum", .num 5 0)])])]) "200") "schema") =
      true :=
  ⟨rfl, rfl⟩

/-- Claim C5 (amended): an operation without `responseMessages` and
without any of the descriptor fields `buildDataType` reads (`type`,
`dataType`, `responseClass`, `$ref`, `items`, `format`, `uniqueItems`,
`minimum`, `maximum`, `default`, `defaultValue`, `enum`) yields exactly
`{"200": {description: "No response was specified"}}`; and every
successful responses map has a `200` entry. -/
theorem default_response_exact {ctx : ConvCtx} {fuel : Nat}
    {ofs : List (String × JsVal)}
    (hclean : ∀ K ∈ descriptorKeys, getField (.obj ofs) K = .undef) :
    buildResponses ctx (fuel + 3) (.obj ofs) =
      .ok (.obj [("200", .obj
        [("description", .str "No response was specified")])]) ∧
    (∀ (fuel2 : Nat) (old r : JsVal),
      buildResponses ctx fuel2 old = .ok r →
      isValue (getField r "200") = true) := by
  constructor
  · show buildResponses ctx (fuel + 2 + 1) (.obj ofs) =
      .ok (.obj [("200", .obj
        [("description", .str "No response was specified")])])
    rw [buildResponses_succ]
    rw [hclean "responseMessages" (by decide)]
    rw [buildDataType_clean hclean]
    rfl
  · intro fuel2 old r h
    cases fuel2 with
    | zero =>
        unfold buildResponses at h
        exact Except.noConfusion h
    | succ fuel2 =>
        unfold buildResponses at h
        obtain ⟨r1, hr1, h⟩ := jres_bind_eq_ok h
        obtain ⟨opSchema, hop, h⟩ := jres_bind_eq_ok h
        cases h
        show isValue (lookupF (setFieldL r1 "200" _) "200") = true
        rw [lookupF_setFieldL_self]
        rfl

/-- Witness for C5 (amended): an operation carrying only a `summary`
yields exactly the default responses map, which has a `200` entry. -/
theorem default_response_exact_witness :
    (∀ K ∈ descriptorKeys,
      getField (.obj [("summary", JsVal.str "s")]) K = .undef) ∧
    buildResponses ⟨[], [], .undef⟩ 9 (.obj [("summary", .str "s")]) =
      .ok (.obj [("200", .obj
        [("description", .str "No response was specified")])]) ∧
    isValue (getField (.obj [("200", JsVal.obj
      [("description", JsVal.str "No response was specified")])])
      "200") = true :=
  ⟨by intro K hK; fin_cases hK <;> rfl,
   (@default_response_exact ⟨[], [], .undef⟩ 6 [("summary", .str "s")]
     (by intro K hK; fin_cases hK <;> rfl)).1,
   (@default_response_exact ⟨[], [], .undef⟩ 6 [("summary", .str "s")]
     (by intro K hK; fin_cases hK <;> rfl)).2 9
     (.obj [("summary", .str "s")])
     (.obj [("200", .obj
       [("description", .str "No response was specified")])])
     ((@default_response_exact ⟨[], [], .undef⟩ 6
       [("summary", .str "s")] (by intro K hK; fin_cases hK <;> rfl)).1)⟩

/-- One `subTypes` entry with a translated child and no prior `allOf`:
the child's schema is wrapped with the child first and the parent
reference second. -/
theorem subTypes_step_wrap {P C : String} {pm : JsVal}
    (ms : List (String × JsVal))
    (hsub : getField pm "subTypes" = .arr [.str C])
    (hCval : isValue (lookupF ms C) = true)
    (hCallOf : getField (lookupF ms C) "allOf" = .undef) :
    jsForEachV (getField pm "subTypes") ms (subTypesInner (.str P)) =
      .ok (setFieldL ms C (.obj [("allOf", .arr [lookupF ms C,
        .obj [("$ref", .str ("#/definitions/" ++ P))]])])) := by
  rw [hsub]
  have hstep : subTypesInner (.str P) ms (.str C) =
      .ok (setFieldL ms C (.obj [("allOf", .arr [lookupF ms C,
        .obj [("$ref", .str ("#/definitions/" ++ P))]])])) := by
    unfold subTypesInner
    rw [show jsToString (JsVal.str C) = C from rfl,
      show jsToString (JsVal.str P) = P from rfl, hCval]
    simp only [Bool.not_true, Bool.false_eq_true, if_false]
    rw [hCallOf]
    rfl
  show ((subTypesInner (.str P) ms (.str C)) >>= fun s =>
    List.foldlM (subTypesInner (.str P)) s []) = _
  rw [hstep, jres_bind_ok]
  rfl

/-- One `subTypes` entry naming an untranslated child: the fatal
missing-type error. -/
theorem subTypes_step_missing {P C : String} {pm : JsVal}
    (ms : List (String × JsVal))
    (hsub : getField pm "subTypes" = .arr [.str C])
    (hmiss : isValue (lookupF ms C) = false) :
    jsForEachV (getField pm "subTypes") ms (subTypesInner (.str P)) =
      .error (.convMsg ("subTypes resolution: Missing \"" ++ C ++
        "\" type")) := by
  rw [hsub]
  have hstep : subTypesInner (.str P) ms (.str C) =
      .error (.convMsg ("subTypes resolution: Missing \"" ++ C ++
        "\" type")) := by
    unfold subTypesInner
    rw [show jsToString (JsVal.str C) = C from rfl, hmiss]
    rfl
  show ((subTypesInner (.str P) ms (.str C)) >>= fun s =>
    List.foldlM (subTypesInner (.str P)) s []) = _
  rw [hstep]
  rfl

/-- The `subTypes` pass over a two-model map `{P, C}` where only `P`
lists `subTypes: [C]`: the child entry is wrapped, in either iteration
order. -/
theorem applySubTypes_two {P C : String} {pm cm : JsVal}
    {m0 : List (String × JsVal)}
    (hsub : getField pm "subTypes" = .arr [.str C])
    (hsubC : getField cm "subTypes" = .undef)
    (hCval : isValue (lookupF m0 C) = true)
    (hCallOf : getField (lookupF m0 C) "allOf" = .undef) :
    applySubTypes (.obj [(P, pm), (C, cm)]) m0 =
      .ok (setFieldL m0 C (.obj [("allOf", .arr [lookupF m0 C,
        .obj [("$ref", .str ("#/definitions/" ++ P))]])])) := by
  show (if strLe P C then [(P, pm), (C, cm)] else [(C, cm), (P, pm)]).foldlM
    (fun s kv => jsForEachV (getField kv.2 "subTypes") s
      (subTypesInner (.str kv.1))) m0 = _
  by_cases hle : strLe P C = true
  · rw [if_pos hle]
    show (jsForEachV (getField pm "subTypes") m0 (subTypesInner (.str P))
      >>= fun s1 =>
        List.foldlM (fun (s : List (String × JsVal))
          (kv : String × JsVal) => jsForEachV (getField kv.2 "subTypes") s
          (subTypesInner (.str kv.1))) s1 [(C, cm)]) = _
    rw [subTypes_step_wrap m0 hsub hCval hCallOf, jres_bind_ok]
    show (jsForEachV (getField cm "subTypes") _ (subTypesInner (.str C))
      >>= fun s2 =>
        List.foldlM (fun (s : List (String × JsVal))
          (kv : String × JsVal) => jsForEachV (getField kv.2 "subTypes") s
          (subTypesInner (.str kv.1))) s2 []) = _
    rw [hsubC]
    rfl
  · rw [if_neg hle]
    show (jsForEachV (getField cm "subTypes") m0 (subTypesInner (.str C))
      >>= fun s1 =>
        List.foldlM (fun (s : List (String × JsVal))
          (kv : String × JsVal) => jsForEachV (getField kv.2 "subTypes") s
          (subTypesInner (.str kv.1))) s1 [(P, pm)]) = _
    rw [hsubC]
    show (jsForEachV (getField pm "subTypes") m0 (subTypesInner (.str P))
      >>= fun s2 =>
        List.foldlM (fun (s : List (String × JsVal))
          (kv : String × JsVal) => jsForEachV (getField kv.2 "subTypes") s
          (subTypesInner (.str kv.1))) s2 []) = _
    rw [subTypes_step_wrap m0 hsub hCval hCallOf, jres_bind_ok]
    rfl

/-- The `subTypes` pass over a single-model map whose `subTypes` names a
missing child: the fatal missing-type error. -/
theorem applySubTypes_missing {P C : String} {pm : JsVal}
    {m1 : List (String × JsVal)}
    (hsub : getField pm "subTypes" = .arr [.str C])
    (hmiss : isValue (lookupF m1 C) = false) :
    applySubTypes (.obj [(P, pm)]) m1 =
      .error (.convMsg ("subTypes resolution: Missing \"" ++ C ++
        "\" type")) := by
  show (jsForEachV (getField pm "subTypes") m1 (subTypesInner (.str P))
    >>= fun s1 =>
      List.foldlM (fun (s : List (String × JsVal))
        (kv : String × JsVal) => jsForEachV (getField kv.2 "subTypes") s
        (subTypesInner (.str kv.1))) s1 []) = _
  rw [subTypes_step_missing m1 hsub hmiss]
  rfl

/-- Claim C1 (amended): given a parent `P` whose `subTypes` lists `C`, if
`C` exists among the translated models, the output definitions entry for
`C` equals `{allOf: [S, {$ref: "#/definitions/" + P}]}` — the child's own
previously-built schema `S` first and the parent reference appended after
it; if `C` does not exist among the translated models, the conversion
fails with the fatal missing-type error. -/
theorem subTypes_inheritance {ct : List String} {fuel : Nat}
    {P C : String} {pm cm : JsVal} {m0 m1 : List (String × JsVal)}
    (hms : translateModels ct fuel (.obj [(P, pm), (C, cm)]) = .ok m0)
    (hsub : getField pm "subTypes" = .arr [.str C])
    (hsubC : getField cm "subTypes" = .undef)
    (hCval : isValue (lookupF m0 C) = true)
    (hCallOf : getField (lookupF m0 C) "allOf" = .undef)
    (hms1 : translateModels ct fuel (.obj [(P, pm)]) = .ok m1)
    (hmiss : isValue (lookupF m1 C) = false) :
    buildDefinitions ct fuel (.obj [(P, pm), (C, cm)]) =
      .ok (.obj (setFieldL m0 C (.obj [("allOf",
        .arr [lookupF m0 C,
          .obj [("$ref", .str ("#/definitions/" ++ P))]])]))) ∧
    buildDefinitions ct fuel (.obj [(P, pm)]) =
      .error (.convMsg ("subTypes resolution: Missing \"" ++ C ++
        "\" type")) := by
  constructor
  · unfold buildDefinitions
    rw [hms, jres_bind_ok]
    rw [applySubTypes_two hsub hsubC hCval hCallOf, jres_bind_ok]
    rfl
  · unfold buildDefinitions
    rw [hms1, jres_bind_ok]
    rw [applySubTypes_missing hsub hmiss]
    rfl

/-- Counterexample for claim C1: for `Animal` with `subTypes: ["Dog"]`,
the output `definitions.Dog` is `{allOf: [S, {$ref:
"#/definitions/Animal"}]}` with the child's own schema `S` first — not
`{allOf: [{$ref: "#/definitions/Animal"}, S]}` with the parent reference
first; the first `allOf` element carries no `$ref`. -/
theorem subTypes_allOf_order_counterexample :
    buildDefinitions [] 9
      (.obj [("Animal", .obj [("subTypes", .arr [.str "Dog"])]),
        ("Dog", .obj [("properties", .obj [("breed",
          .obj [("type", .str "string")])])])]) =
      .ok (.obj [("Animal", .obj []),
        ("Dog", .obj [("allOf", .arr
          [.obj [("properties", .obj [("breed",
             .obj [("type", .str "string")])])],
           .obj [("$ref", .str "#/definitions/Animal")]])])]) ∧
    arrElems (getField (getField (.obj [("Animal", JsVal.obj []),
        ("Dog", .obj [("allOf", .arr
          [.obj [("properties", .obj [("breed",
             .obj [("type", .str "string")])])],
           .obj [("$ref", .str "#/definitions/Animal")]])])]) "Dog")
        "allOf") =
      [.obj [("properties", .obj [("breed",
         .obj [("type", .str "string")])])],
       .obj [("$ref", .str "#/definitions/Animal")]] ∧
    (arrElems (getField (getField (.obj [("Animal", JsVal.obj []),
        ("Dog", .obj [("allOf", .arr
          [.obj [("properties", .obj [("breed",
             .obj [("type", .str "string")])])],
           .obj [("$ref", .str "#/definitions/Animal")]])])]) "Dog")
        "allOf")).head? =
      some (.obj [("properties", .obj [("breed",
        .obj [("type", .str "string")])])]) ∧
    getField (.obj [("properties", JsVal.obj [("breed",
      .obj [("type", .str "string")])])]) "$ref" = .undef :=
  ⟨rfl, rfl, rfl, rfl⟩

/-- Witness for C1 (amended) on the `Animal`/`Dog` models: the wrap with
the child first, and the fatal error when `Dog` is missing. -/
theorem subTypes_inheritance_witness :
    buildDefinitions [] 9
      (.obj [("Animal", .obj [("subTypes", .arr [.str "Dog"])]),
        ("Dog", .obj [("properties", .obj [("breed",
          .obj [("type", .str "string")])])])]) =
      .ok (.obj (setFieldL
        [("Animal", .obj []),
         ("Dog", .obj [("properties", .obj [("breed",
           .obj [("type", .str "string")])])])] "Dog"
        (.obj [("allOf", .arr [lookupF
          [("Animal", .obj []),
           ("Dog", .obj [("properties", .obj [("breed",
             .obj [("type", .str "string")])])])] "Dog",
          .obj [("$ref", .str ("#/definitions/" ++ "Animal"))]])]))) ∧
    buildDefinitions [] 9
      (.obj [("Animal", .obj [("subTypes", .arr [.str "Dog"])])]) =
      .error (.convMsg ("subTypes resolution: Missing \"" ++ "Dog" ++
        "\" type")) :=
  @subTypes_inheritance [] 9 "Animal" "Dog"
    (.obj [("subTypes", .arr [.str "Dog"])])
    (.obj [("properties", .obj [("breed", .obj [("type", .str "string")])])])
    [("Animal", .obj []),
     ("Dog", .obj [("properties", .obj [("breed",
       .obj [("type", .str "string")])])])]
    [("Animal", .obj [])]
    rfl rfl rfl rfl rfl rfl rfl


/-- A vendor-extension key differs from any key that fails the `X-` test. -/
theorem xDash_ne {k : String} (hx : isXDashKey k = true) {k2 : String}
    (hk2 : isXDashKey k2 = false) : k ≠ k2 := by
  intro he
  rw [he, hk2] at hx
  exact Bool.false_ne_true hx

/-- No schema key of a non-body parameter is a vendor-extension key. -/
theorem xDash_not_mem_paramSchemaKeys {k : String}
    (hx : isXDashKey k = true) : k ∉ paramSchemaKeys := by
  intro hm
  have hall : ∀ k2 ∈ paramSchemaKeys, isXDashKey k2 = false := by decide
  rw [hall k hm] at hx
  exact Bool.false_ne_true hx

/-- Claim C9: every field of a parameter object whose name starts with
`X-` (case-insensitively) is copied verbatim onto the output parameter. -/
theorem xFields_copied {ctx : ConvCtx} {fuel : Nat}
    {fs : List (String × JsVal)} {p : JsVal} {k : String} {v : JsVal}
    (hnd : NodupKeys fs) (hmem : (k, v) ∈ fs) (hx : isXDashKey k = true)
    (h : buildParameter ctx fuel (.obj fs) = .ok p) :
    getField p k = v := by
  cases fuel with
  | zero =>
      unfold buildParameter at h
      exact Except.noConfusion h
  | succ fuel =>
      obtain ⟨req, p1, hreq, hp1, hrest⟩ := buildParameter_ok_shape h
      have hk1 : lookupF p1 k = v := lookupF_copyXFields_x hnd hmem hx hp1
      have hkf : lookupF (formRename p1) k = v := by
        unfold formRename
        by_cases hf : isStr (lookupF p1 "in") "form" = true
        · rw [if_pos hf, lookupF_setFieldL_ne _ _ (xDash_ne hx (by decide)),
            hk1]
        · rw [if_neg hf]
          exact hk1
      rcases hrest with ⟨hbody, schema, hsch, hp⟩ |
        ⟨hbody, schema, am, hsch, ham, hp⟩
      · subst hp
        show lookupF (bodyTail (formRename p1) schema) k = v
        rw [lookupF_bodyTail_ne (xDash_ne hx (by decide))
          (xDash_ne hx (by decide)), hkf]
      · subst hp
        have hinv := nonBodyTail_inv ctx (formRename p1)
          ((buildInventory ctx.customTypes fuel).2.1 _ _ _ hsch) am
        show lookupF (assignFields (formRename p1)
          (objFields (nonBodyTail ctx (formRename p1) schema am))) k = v
        rw [lookupF_assignFields_not_mem
          (not_mem_keysOf_of_keysIn hinv.1 (xDash_not_mem_paramSchemaKeys hx))
          _, hkf]

/-- Witness for C9: an `X-internal-id` field on a query parameter survives
conversion unchanged. -/
theorem xFields_copied_witness :
    NodupKeys [("paramType", JsVal.str "query"), ("name", .str "q"),
      ("type", .str "string"), ("X-internal-id", .num 7 0)] ∧
    (("X-internal-id", JsVal.num 7 0) ∈
      [("paramType", JsVal.str "query"), ("name", .str "q"),
       ("type", .str "string"), ("X-internal-id", .num 7 0)]) ∧
    isXDashKey "X-internal-id" = true ∧
    getField (.obj [("in", .str "query"), ("name", .str "q"),
      ("X-internal-id", .num 7 0), ("type", .str "string")])
      "X-internal-id" = .num 7 0 :=
  ⟨by unfold NodupKeys keysOf; decide,
    List.mem_cons_of_mem _ (List.mem_cons_of_mem _
      (List.mem_cons_of_mem _ (List.mem_cons_self _ _))),
    by decide,
    @xFields_copied ⟨[], [], .undef⟩ 9
      [("paramType", JsVal.str "query"), ("name", .str "q"),
       ("type", .str "string"), ("X-internal-id", .num 7 0)]
      (.obj [("in", .str "query"), ("name", .str "q"),
        ("X-internal-id", .num 7 0), ("type", .str "string")])
      "X-internal-id" (.num 7 0) (by unfold NodupKeys keysOf; decide)
      (List.mem_cons_of_mem _ (List.mem_cons_of_mem _
        (List.mem_cons_of_mem _ (List.mem_cons_self _ _))))
      (by decide) rfl⟩

end SwaggerConv
